import Mathlib

/-!
# Verification of the analytics-copilot core pipeline

A shallow embedding of the three agent modules of the analytics-copilot
repository (`src/agents/schema_linker.py`, `src/agents/sql_generator.py`,
`src/agents/validator.py`) together with proofs about the embedded code.

Modelling conventions:
* The external collaborators (warehouse gateway, Cortex semantic search,
  Cortex LLM completion, metadata/catalog store) are modelled as oracles:
  record fields holding the outcome of each call site.  The SQL text the
  code would send to the warehouse is determined by the parameters those
  oracles receive.
* Python strings are modelled as `List Char` / `String`; `str.strip`,
  `str.split` and the `re` operations used by the code are transcribed as
  structural scanner functions so every definition evaluates by `decide`.
* Python floats carry only the constant relevance scores 0.5 / 0.4 / 0.3 /
  0.1 and their comparisons in everything the claims touch; they are
  modelled as `ℚ` (constants written with `mkRat`).
* Python `dict` preserves insertion order; the grouping loops are embedded
  as folds over association lists that preserve that order.
-/

set_option maxRecDepth 100000
set_option maxHeartbeats 1000000

namespace AnalyticsCopilot

/-! ## String utilities (shared Python semantics) -/

/-- Python `\s` / `str.strip()` whitespace: space, tab, CR, LF, plus
vertical tab and form feed. -/
def isPySpace (c : Char) : Bool :=
  c.isWhitespace || c = '\x0b' || c = '\x0c'

/-- Horizontal whitespace matched by the regex class `[ \t]`. -/
def isHT (c : Char) : Bool :=
  c = ' ' || c = '\t'

/-- ASCII-lowering of a character list (Python `str.lower` on the ASCII
fragment the code manipulates). -/
def pyLowerL (l : List Char) : List Char :=
  l.map Char.toLower

/-- `listStarts pat l` : `pat` is an initial segment of `l`. -/
def listStarts : List Char → List Char → Bool
  | [], _ => true
  | _ :: _, [] => false
  | p :: ps, c :: cs => p = c && listStarts ps cs

/-- `containsSubL pat l` : `pat` occurs contiguously inside `l`
(Python `pat in l`). -/
def containsSubL (pat : List Char) : List Char → Bool
  | [] => pat.isEmpty
  | c :: r => listStarts pat (c :: r) || containsSubL pat r

/-- `containsSub s pat` : Python `pat in s` on strings. -/
def containsSub (s pat : String) : Bool :=
  containsSubL pat.data s.data

/-- Python `str.strip()` on a character list: drop `isPySpace` characters
from both ends. -/
def pyStripL (l : List Char) : List Char :=
  ((l.dropWhile isPySpace).reverse.dropWhile isPySpace).reverse

/-- Python `str.strip()` on a `String`. -/
def pyStrip (s : String) : String :=
  String.mk (pyStripL s.data)

/-- Python falsy-or-blank test `not s or not s.strip()`. -/
def isBlank (s : String) : Bool :=
  pyStrip s = ""

/-- Python `str.rstrip(';')`: drop trailing semicolons. -/
def dropTrailingSemis (l : List Char) : List Char :=
  (l.reverse.dropWhile (fun c => c = ';')).reverse

/-- Python `str.split()` (split on whitespace runs, discarding empties). -/
def splitWS : List Char → List (List Char)
  | [] => []
  | c :: r =>
    if isPySpace c then splitWS r
    else match r with
      | [] => [[c]]
      | d :: _ =>
        if isPySpace d then [c] :: splitWS r
        else match splitWS r with
          | [] => [[c]]
          | w :: ws => (c :: w) :: ws

/-- Python `str.strip(chars)` for a given character set: drop the given
characters from both ends. -/
def stripCharsL (chs : List Char) (l : List Char) : List Char :=
  ((l.dropWhile (fun c => chs.contains c)).reverse.dropWhile
    (fun c => chs.contains c)).reverse

/-- Stable descending sort (Python `sorted(..., reverse=True)` /
`list.sort(reverse=True)` with a key): later elements are inserted after
earlier elements with an equal key. -/
def sortDescBy (gt : α → α → Bool) (l : List α) : List α :=
  l.foldl (fun acc x => insertDesc acc x) []
where insertDesc : List α → α → List α
  | [], x => [x]
  | y :: rest, x => if gt x y then x :: y :: rest else y :: insertDesc rest x

/-! ## SQL Generator: `_clean_sql` (src/agents/sql_generator.py:450-483) -/

/-- One pass of `re.sub(r'```(?:sql)?', '', sql, flags=re.IGNORECASE)`:
remove every code-fence marker, eating the optional (case-insensitive)
`sql` tag greedily, scanning left to right. -/
def stripFences : List Char → List Char
  | '`' :: '`' :: '`' :: a :: b :: c :: rest =>
      if a.toLower = 's' && b.toLower = 'q' && c.toLower = 'l' then stripFences rest
      else stripFences (a :: b :: c :: rest)
  | '`' :: '`' :: '`' :: rest => stripFences rest
  | c :: rest => c :: stripFences rest
  | [] => []

/-- `re.sub(r'[ \t]+', ' ', sql)`: collapse every run of spaces/tabs to a
single space. -/
def collapseHT : List Char → List Char
  | [] => []
  | [c] => if isHT c then [' '] else [c]
  | c :: d :: r =>
      if isHT c then (if isHT d then collapseHT (d :: r) else ' ' :: collapseHT (d :: r))
      else c :: collapseHT (d :: r)

/-- Does the whitespace run at the head of the list contain a newline?
(Can the regex `\s*\n` close a `\n\s*\n` match from here?) -/
def nlAhead : List Char → Bool
  | [] => false
  | c :: r => if c = '\n' then true else if isPySpace c then nlAhead r else false

/-- `re.sub(r'\n\s*\n', '\n', sql)` as a single left-to-right scan.  The
flag records being inside a match (between the opening newline and the
greedy closing newline); each match is replaced by one `'\n'`, emitted at
the closing newline. -/
def collapseNLs : Bool → List Char → List Char
  | _, [] => []
  | inMatch, c :: r =>
    if c = '\n' then
      if nlAhead r then collapseNLs true r else '\n' :: collapseNLs false r
    else if inMatch && isPySpace c then collapseNLs true r
    else c :: collapseNLs false r

/-- `re.sub(r'\n\s*\n', '\n', sql)`. -/
def collapseNL (l : List Char) : List Char :=
  collapseNLs false l

/-- `_clean_sql` (src/agents/sql_generator.py:450-483): remove fence
markers, `rstrip(';')`, `strip()`, collapse `[ \t]+` to one space,
collapse `\n\s*\n` to one newline, final `strip()`. -/
def clean_sql (sql : String) : String :=
  if sql = "" then ""
  else String.mk (pyStripL (collapseNL (collapseHT
    (pyStripL (dropTrailingSemis (stripFences sql.data))))))

/-! ## SQL Generator: `_extract_sql` (src/agents/sql_generator.py:391-447) -/

/-- Three literal backticks at the head of the list. -/
def tripleAt : List Char → Bool
  | [] => false
  | a :: r =>
    a = '`' && (match r with
      | [] => false
      | b :: r2 => b = '`' && (match r2 with | [] => false | c :: _ => c = '`'))

/-- The case-insensitive tag `sql` at the head of the list. -/
def sqlTagAt : List Char → Bool
  | [] => false
  | a :: r =>
    a.toLower = 's' && (match r with
      | [] => false
      | b :: r2 => b.toLower = 'q' && (match r2 with | [] => false | c :: _ => c.toLower = 'l'))

/-- Can `\s*```​` match at the head of the list (whitespace then a closing
fence, with the greedy/backtracking semantics of the regex engine)? -/
def closeScan : List Char → Bool
  | [] => false
  | c :: r => if tripleAt (c :: r) then true else if isPySpace c then closeScan r else false

/-- The lazy group `(.*?)` of `​```(?:sql)?\s*(.*?)\s*```​`: the shortest
prefix after which `\s*```​` matches; `none` when no closing fence is
reachable. -/
def lazyGroup : List Char → Option (List Char)
  | [] => none
  | c :: r => if closeScan (c :: r) then some [] else (lazyGroup r).map (c :: ·)

/-- `re.search(r'```(?:sql)?\s*(.*?)\s*```', text, re.DOTALL | re.IGNORECASE)`:
scan for the leftmost opening fence from which a closing fence is
reachable and return the captured group. -/
def fenceGroup : List Char → Option (List Char)
  | [] => none
  | c :: rest =>
    if tripleAt (c :: rest) then
      let afterOpen := rest.drop 2
      let afterTag := if sqlTagAt afterOpen then afterOpen.drop 3 else afterOpen
      match lazyGroup (afterTag.dropWhile isPySpace) with
      | some g => some g
      | none => fenceGroup rest
    else fenceGroup rest

/-- `\w` of the `re` module (ASCII fragment): letters, digits, underscore. -/
def isWordChar (c : Char) : Bool :=
  c.isAlphanum || c = '_'

/-- Word-boundary check after a keyword of length `n`. -/
def boundaryAfter (n : Nat) (l : List Char) : Bool :=
  match l.drop n with
  | [] => true
  | d :: _ => !(isWordChar d)

/-- Case-insensitive keyword at the head of the list (pattern given in
lowercase). -/
def ciStarts : List Char → List Char → Bool
  | [], _ => true
  | _ :: _, [] => false
  | p :: ps, c :: cs => p = c.toLower && ciStarts ps cs

/-- One of `SELECT|WITH|INSERT|UPDATE|DELETE` matches at the head with a
word boundary after it. -/
def kwAt (l : List Char) : Bool :=
  (ciStarts "select".data l && boundaryAfter 6 l) ||
  (ciStarts "with".data l && boundaryAfter 4 l) ||
  (ciStarts "insert".data l && boundaryAfter 6 l) ||
  (ciStarts "update".data l && boundaryAfter 6 l) ||
  (ciStarts "delete".data l && boundaryAfter 6 l)

/-- `re.search(r'\b(SELECT|WITH|INSERT|UPDATE|DELETE)\b', text, re.IGNORECASE)`:
the suffix of the text from the leftmost keyword occurrence preceded by a
word boundary. -/
def findSqlStart (prev : Option Char) : List Char → Option (List Char)
  | [] => none
  | c :: r =>
    if (match prev with | none => true | some p => !(isWordChar p)) && kwAt (c :: r)
    then some (c :: r)
    else findSqlStart (some c) r

/-- `re.split(r'\n\n[A-Z]', sql)[0]`: the prefix before the first blank
line followed by a capital letter. -/
def splitParaCap : List Char → List Char
  | '\n' :: '\n' :: c :: r =>
      if 'A' ≤ c ∧ c ≤ 'Z' then [] else '\n' :: splitParaCap ('\n' :: c :: r)
  | c :: r => c :: splitParaCap r
  | [] => []

/-- `sql.split(lit)[0]`: the prefix before the first occurrence of the
literal separator. -/
def takeBeforeL (lit : List Char) : List Char → List Char
  | [] => []
  | c :: r => if listStarts lit (c :: r) then [] else c :: takeBeforeL lit r

/-- `_extract_sql` (src/agents/sql_generator.py:391-447). -/
def extract_sql (response_text : String) : String :=
  if response_text = "" then ""
  else
    let text := pyStripL response_text.data
    match fenceGroup text with
    | some g => clean_sql (String.mk (pyStripL g))
    | none =>
      match findSqlStart none text with
      | some suffix =>
        let sql := pyStripL suffix
        let sql := splitParaCap sql
        let sql := takeBeforeL ("\n\nNote:".data) sql
        let sql := takeBeforeL ("\n\nExplanation:".data) sql
        clean_sql (String.mk sql)
      | none => clean_sql (String.mk text)

/-! ## Data model (§3 of the spec; dict shapes used by the agents) -/

/-- Column metadata dict built by the Schema Linker grouping loops. -/
structure ColumnCtx where
  column_name : String
  description : String
  data_type : String
  synonyms : String
deriving DecidableEq

/-- Table dict handed from the Schema Linker to the SQL Generator. -/
structure TableCtx where
  table_name : String
  columns : List ColumnCtx
  relevance_score : ℚ
deriving DecidableEq

/-- A caller-supplied few-shot example (`golden_examples` entries). -/
structure GoldenExample where
  question : String
  sql : String
deriving DecidableEq

/-! ## SQL Generator: prompt construction (src/agents/sql_generator.py:182-388) -/

/-- `_escape_sql_string` (src/agents/sql_generator.py:486-503 and
src/agents/schema_linker.py:440-457). -/
def escape_sql_string (text : String) : String :=
  String.mk (text.data.foldr (fun c acc => if c = '\x27' then '\x27' :: '\x27' :: acc else c :: acc) [])

/-- Rendering of `f"{relevance:.2f}"` for the non-negative scores the
linker produces (decimal rounding of the float format, approximated over
`ℚ` with round-half-up). -/
def ratTo2dp (r : ℚ) : String :=
  let n := (r * 100 + mkRat 1 2).floor.toNat
  let frac := n % 100
  toString (n / 100) ++ "." ++ (if frac < 10 then "0" else "") ++ toString frac

/-- Qualification of a table name with the warehouse prefix
(src/agents/sql_generator.py:207-210 and 363-367). -/
def qualifyTable (t : String) : String :=
  if !(t.startsWith "ANALYTICS_COPILOT") then "ANALYTICS_COPILOT.RAW." ++ t else t

/-- One rendered column line of `_format_schema_context`. -/
def formatColumnLine (c : ColumnCtx) : String :=
  let colLine := "  - " ++ c.column_name ++ " (" ++ c.data_type ++ "): " ++ c.description
  if c.synonyms ≠ "" && pyStrip c.synonyms ≠ "" then
    colLine ++ " [Synonyms: " ++ c.synonyms ++ "]"
  else colLine

/-- `_format_schema_context` (src/agents/sql_generator.py:336-388). -/
def format_schema_context (schema_context : List TableCtx) : String :=
  let lines := schema_context.foldl (fun acc t =>
    (acc ++ ["\nTable: " ++ qualifyTable t.table_name ++
      " (Relevance: " ++ ratTo2dp t.relevance_score ++ ")"])
      ++ t.columns.map formatColumnLine) []
  String.intercalate "\n" lines

/-- The fixed part of the system message before the interpolated
`AVAILABLE TABLES` list (src/agents/sql_generator.py:214-262). -/
def systemMessageHead : String :=
"You are a Senior Snowflake Data Engineer. Your task is to generate accurate SQL queries based on user questions.

DATASET CONTEXT:
This database contains the Olist Brazilian E-Commerce dataset with these tables:
ORDERS, CUSTOMERS, ORDER_ITEMS, ORDER_REVIEWS, ORDER_PAYMENTS, PRODUCTS, SELLERS, GEOLOCATION, PRODUCT_CATEGORY_TRANSLATION

Key relationships:
- ORDERS → CUSTOMERS (via CUSTOMER_ID)
- ORDER_ITEMS → ORDERS (via ORDER_ID), PRODUCTS (via PRODUCT_ID), SELLERS (via SELLER_ID)
- ORDER_REVIEWS → ORDERS (via ORDER_ID)
- ORDER_PAYMENTS → ORDERS (via ORDER_ID)
- PRODUCTS → PRODUCT_CATEGORY_TRANSLATION (via PRODUCT_CATEGORY_NAME)
- SELLERS and CUSTOMERS both have CITY and STATE columns

IMPORTANT DATA MODEL NOTE:
- CUSTOMERS.CUSTOMER_ID is a per-order proxy key — each order gets its own CUSTOMER_ID row.
  A single real customer can have multiple CUSTOMER_ID values.
- CUSTOMERS.CUSTOMER_UNIQUE_ID is the true unique customer identifier.
- To count orders per real customer, GROUP BY CUSTOMER_UNIQUE_ID (not CUSTOMER_ID).
  Example: SELECT c.CUSTOMER_UNIQUE_ID, COUNT(o.ORDER_ID) AS order_count
           FROM ANALYTICS_COPILOT.RAW.ORDERS o
           JOIN ANALYTICS_COPILOT.RAW.CUSTOMERS c ON o.CUSTOMER_ID = c.CUSTOMER_ID
           GROUP BY c.CUSTOMER_UNIQUE_ID

CRITICAL RULES:
1. Use ONLY the tables listed in AVAILABLE TABLES below. Do NOT use any other table.
2. ALWAYS use fully qualified table names: ANALYTICS_COPILOT.RAW.<table_name>
   Example: ANALYTICS_COPILOT.RAW.ORDERS (NOT ANALYTICS_COPILOT.RAW.OLIST_ORDERS, NOT just ORDERS)
   Example: ANALYTICS_COPILOT.RAW.ORDER_REVIEWS (NOT ANALYTICS_COPILOT.RAW.REVIEWS)
3. Do NOT invent table names. If the table you need is not in AVAILABLE TABLES, return: \"ERROR: Insufficient schema information\"
4. Use Snowflake SQL syntax (NOT MySQL, PostgreSQL, or other dialects)
5. Use uppercase for ALL SQL keywords (SELECT, FROM, WHERE, JOIN, GROUP BY, etc.)
6. Always qualify column names with their table name (e.g., ANALYTICS_COPILOT.RAW.ORDERS.order_id)
7. Use proper JOIN syntax based on the key relationships listed above
8. Use appropriate aggregations (SUM, AVG, COUNT, etc.) when asking for totals or averages
9. Return ONLY the SQL query - no explanations, no markdown, no extra text
10. Do NOT use markdown code fences (```sql ... ```)
11. Use standard Snowflake date functions (TO_DATE, DATEADD, DATEDIFF, DATE_TRUNC, etc.)
    DATEDIFF syntax: DATEDIFF('day', start_col, end_col)  -- NOT DATEDIFF(end_col, start_col)
    Example: DATEDIFF('day', order_purchase_timestamp, order_delivered_customer_date)
12. For top-N-per-group queries, use a CTE with ROW_NUMBER() then WHERE row_num <= N (do NOT use QUALIFY with aliases)
13. For month-over-month calculations, aggregate first in a CTE, then apply LAG() in the outer query
14. For questions using superlatives (most, highest, lowest, best, worst, top, bottom) without a specific N, add LIMIT 20
    Example: \"which customers placed the most orders\" → ORDER BY order_count DESC LIMIT 20
15. Only SELECT the columns directly needed to answer the question — do NOT select all columns from a table.
    For ranking/aggregation questions, select only the grouping identifier(s) and the aggregate metric.
    BAD:  SELECT CUSTOMER_ID, CUSTOMER_UNIQUE_ID, ZIP_CODE, CITY, STATE, COUNT(*) AS order_count ...
    GOOD: SELECT CUSTOMER_UNIQUE_ID, COUNT(*) AS order_count ...

AVAILABLE TABLES (use ONLY these, with ANALYTICS_COPILOT.RAW. prefix):
"

/-- The built-in few-shot examples (src/agents/sql_generator.py:273-308). -/
def builtinExamples : String :=
"EXAMPLE QUERIES (correct SQL patterns to follow):

Example A - Top-N per group (use CTE + WHERE, NOT QUALIFY with aliases):
Question: Find the top 2 sellers by revenue in each state
SQL:
WITH ranked_sellers AS (
    SELECT
        ANALYTICS_COPILOT.RAW.SELLERS.SELLER_STATE,
        ANALYTICS_COPILOT.RAW.SELLERS.SELLER_ID,
        SUM(ANALYTICS_COPILOT.RAW.ORDER_ITEMS.PRICE) AS TOTAL_REVENUE,
        ROW_NUMBER() OVER (PARTITION BY ANALYTICS_COPILOT.RAW.SELLERS.SELLER_STATE ORDER BY SUM(ANALYTICS_COPILOT.RAW.ORDER_ITEMS.PRICE) DESC) AS row_num
    FROM ANALYTICS_COPILOT.RAW.SELLERS
    JOIN ANALYTICS_COPILOT.RAW.ORDER_ITEMS ON ANALYTICS_COPILOT.RAW.SELLERS.SELLER_ID = ANALYTICS_COPILOT.RAW.ORDER_ITEMS.SELLER_ID
    GROUP BY ANALYTICS_COPILOT.RAW.SELLERS.SELLER_STATE, ANALYTICS_COPILOT.RAW.SELLERS.SELLER_ID
)
SELECT SELLER_STATE, SELLER_ID, TOTAL_REVENUE FROM ranked_sellers WHERE row_num <= 2

Example B - Month-over-month growth (aggregate in CTE first, then LAG):
Question: What is the month-over-month growth rate in total payments?
SQL:
WITH monthly_totals AS (
    SELECT
        DATE_TRUNC('MONTH', ANALYTICS_COPILOT.RAW.ORDERS.ORDER_PURCHASE_TIMESTAMP) AS MONTH,
        SUM(ANALYTICS_COPILOT.RAW.ORDER_PAYMENTS.PAYMENT_VALUE) AS TOTAL_PAYMENT
    FROM ANALYTICS_COPILOT.RAW.ORDER_PAYMENTS
    JOIN ANALYTICS_COPILOT.RAW.ORDERS ON ANALYTICS_COPILOT.RAW.ORDER_PAYMENTS.ORDER_ID = ANALYTICS_COPILOT.RAW.ORDERS.ORDER_ID
    GROUP BY DATE_TRUNC('MONTH', ANALYTICS_COPILOT.RAW.ORDERS.ORDER_PURCHASE_TIMESTAMP)
)
SELECT
    MONTH,
    TOTAL_PAYMENT,
    LAG(TOTAL_PAYMENT) OVER (ORDER BY MONTH) AS PREV_MONTH_PAYMENT,
    (TOTAL_PAYMENT - LAG(TOTAL_PAYMENT) OVER (ORDER BY MONTH)) / NULLIF(LAG(TOTAL_PAYMENT) OVER (ORDER BY MONTH), 0) AS GROWTH_RATE
FROM monthly_totals
ORDER BY MONTH
"

/-- Caller-supplied examples section: `enumerate(golden_examples, 1)`,
skipping entries with a falsy question or SQL but keeping their index. -/
def renderGoldenExamples (golden_examples : List GoldenExample) : String :=
  String.join (golden_examples.enum.map (fun p =>
    if p.2.question ≠ "" && p.2.sql ≠ "" then
      "Example " ++ toString (p.1 + 1) ++ ":\nQuestion: " ++ p.2.question ++
        "\nSQL:\n" ++ p.2.sql ++ "\n\n"
    else ""))

/-- `_build_prompt` (src/agents/sql_generator.py:182-333). -/
def build_prompt (question : String) (schema_context : List TableCtx)
    (golden_examples : List GoldenExample) : String :=
  let available_tables := (schema_context.map (·.table_name)).filter (· ≠ "")
  let qualified_tables := available_tables.map qualifyTable
  let available_tables_str :=
    if qualified_tables = [] then "none" else String.intercalate ", " qualified_tables
  let system_message := systemMessageHead ++ available_tables_str ++
    "\n\nIf the table you need is NOT in the list above, return: \"ERROR: Insufficient schema information\"\n"
  let schema_text := format_schema_context schema_context
  let examples_text :=
    if golden_examples ≠ [] then
      builtinExamples ++ "\nADDITIONAL EXAMPLES:\n" ++ renderGoldenExamples golden_examples
    else builtinExamples
  system_message ++ "\n\nDATABASE SCHEMA (column details for the available tables):\n" ++
    schema_text ++ "\n\n" ++ examples_text ++ "\nUSER QUESTION:\n" ++ question ++
    "\n\nGenerate the SQL query now (SQL only, no explanations, no markdown):\n"

/-! ## SQL Generator: `generate_sql` (src/agents/sql_generator.py:41-179)

The Cortex `COMPLETE` call is an oracle: the warehouse either raises, or
`collect()` comes back empty, or it returns the completion text (possibly
NULL, modelled as `ok` of an arbitrary string which the code then blank-
checks). Every exception branch of the source returns `""` (the message
classification at lines 159-179 only selects the warning text). -/

/-- Outcome of the `SNOWFLAKE.CORTEX.COMPLETE` query. -/
inductive CompleteOutcome where
  | raised (msg : String)
  | noRows
  | ok (text : String)

/-- The text-completion collaborator. -/
structure LLM where
  complete : String → CompleteOutcome

/-- `generate_sql` (src/agents/sql_generator.py:41-179). -/
def generate_sql (llm : LLM) (question : String) (schema_context : List TableCtx)
    (golden_examples : List GoldenExample) : String :=
  if isBlank question then ""
  else if schema_context = [] then ""
  else
    let prompt := build_prompt question schema_context golden_examples
    match llm.complete (escape_sql_string prompt) with
    | .raised _ => ""
    | .noRows => ""
    | .ok generated_text =>
      if isBlank generated_text then ""
      else
        let sql_query := extract_sql generated_text
        if isBlank sql_query then "" else sql_query

/-! ## Schema Linker (src/agents/schema_linker.py)

The metadata/catalog store and the Cortex Search service are external
collaborators (spec §6); each `session.sql(...).collect()` call site is an
oracle field of `LinkerSession`, taking the parameters that determine the
SQL the code would send (extracted keywords and `limit * 15` for the
keyword query, requested table names for the metadata fetches). -/

/-- One record of the Cortex Search response (`result_item`); every field
is read with `.get(...)` defaults, so fields are optional. -/
structure SearchRow where
  table_name : Option String
  column_name : Option String
  description : Option String
  data_type : Option String
  synonyms : Option String
  score : Option ℚ
deriving DecidableEq

/-- Outcome of the `SNOWFLAKE.CORTEX.SEARCH_PREVIEW` query, as the code
distinguishes it: a (possibly empty) parsed `results` array — empty also
covers an empty `collect()` and a missing/empty `results` key, all of
which return `[]` — or a raised exception with its message. -/
inductive SearchOutcome where
  | results (rows : List SearchRow)
  | raised (msg : String)

/-- One row of the keyword query over `TABLE_DESCRIPTIONS`
(src/agents/schema_linker.py:251-258); `description`, `data_type` and
`synonyms` are nullable columns read with `or ''`. -/
structure KeywordRow where
  table_name : String
  column_name : String
  description : Option String
  data_type : Option String
  synonyms : Option String
  match_count : Int
deriving DecidableEq

/-- One row of the by-name `TABLE_DESCRIPTIONS` query
(src/agents/schema_linker.py:359-364). -/
structure MetaRow where
  table_name : String
  column_name : String
  description : Option String
  data_type : Option String
  synonyms : Option String
deriving DecidableEq

/-- One row of an `INFORMATION_SCHEMA.COLUMNS` query
(src/agents/schema_linker.py:385-390 and 413-418). -/
structure RawRow where
  table_name : String
  column_name : String
  data_type : String
deriving DecidableEq

/-- The linker's external collaborators, one oracle per call site. -/
structure LinkerSession where
  search : SearchOutcome
  keywordQuery : List String → Nat → Except String (List KeywordRow)
  descByName : List String → Except String (List MetaRow)
  rawByName : List String → Except String (List RawRow)
  rawAll : Except String (List RawRow)

/-- Which fallback tiers a `link_schema` call entered, in order
(instrumentation of the control flow; the source only logs warnings). -/
inductive Tier where
  | semantic
  | keyword
  | fullCatalog
deriving DecidableEq

/-! ### Grouping loops -/

/-- Accumulator entry of the semantic-tier grouping loop
(src/agents/schema_linker.py:148-177): the per-table dict with its
temporary `relevance_scores` list. -/
structure SemAgg where
  table_name : String
  columns : List ColumnCtx
  relevance_scores : List ℚ
deriving DecidableEq

/-- One iteration of the semantic-tier grouping loop: initialize the
table entry on first sight, then append the column metadata and score.
Insertion order of the Python dict is preserved. -/
def semInsert (acc : List SemAgg) (r : SearchRow) : List SemAgg :=
  let tname := r.table_name.getD "UNKNOWN"
  let col : ColumnCtx :=
    ⟨r.column_name.getD "UNKNOWN", r.description.getD "",
     r.data_type.getD "UNKNOWN", r.synonyms.getD ""⟩
  let sc := r.score.getD 0
  go acc tname col sc
where go : List SemAgg → String → ColumnCtx → ℚ → List SemAgg
  | [], tname, col, sc => [⟨tname, [col], [sc]⟩]
  | a :: rest, tname, col, sc =>
    if a.table_name = tname then
      ⟨a.table_name, a.columns ++ [col], a.relevance_scores ++ [sc]⟩ :: rest
    else a :: go rest tname col sc

/-- Average the per-column scores of a table
(src/agents/schema_linker.py:179-185). -/
def semToTable (a : SemAgg) : TableCtx :=
  ⟨a.table_name, a.columns,
   if a.relevance_scores = [] then 0
   else a.relevance_scores.sum / (a.relevance_scores.length : ℚ)⟩

/-- Accumulator entry of the keyword-tier grouping loop
(src/agents/schema_linker.py:265-280): relevance is the constant 0.5 and
`_match_count` is taken from the first row of the table. -/
structure KwAgg where
  table_name : String
  columns : List ColumnCtx
  relevance_score : ℚ
  match_count : Int
deriving DecidableEq

/-- One iteration of the keyword-tier grouping loop. -/
def kwInsert (acc : List KwAgg) (r : KeywordRow) : List KwAgg :=
  let col : ColumnCtx :=
    ⟨r.column_name, r.description.getD "", r.data_type.getD "", r.synonyms.getD ""⟩
  go acc r.table_name col r.match_count
where go : List KwAgg → String → ColumnCtx → Int → List KwAgg
  | [], tname, col, mc => [⟨tname, [col], mkRat 1 2, mc⟩]
  | a :: rest, tname, col, mc =>
    if a.table_name = tname then
      ⟨a.table_name, a.columns ++ [col], a.relevance_score, a.match_count⟩ :: rest
    else a :: go rest tname col mc

/-- Drop the internal `_match_count` field. -/
def kwToTable (a : KwAgg) : TableCtx :=
  ⟨a.table_name, a.columns, a.relevance_score⟩

/-- The by-name metadata grouping loop
(src/agents/schema_linker.py:368-379), with its constant score
(0.4 there). -/
def groupMeta (score : ℚ) (rows : List MetaRow) : List TableCtx :=
  rows.foldl (fun acc r =>
    go acc r.table_name
      ⟨r.column_name, r.description.getD "", r.data_type.getD "", r.synonyms.getD ""⟩
      score) []
where go : List TableCtx → String → ColumnCtx → ℚ → List TableCtx
  | [], tname, col, sc => [⟨tname, [col], sc⟩]
  | a :: rest, tname, col, sc =>
    if a.table_name = tname then ⟨a.table_name, a.columns ++ [col], a.relevance_score⟩ :: rest
    else a :: go rest tname col sc

/-- The `INFORMATION_SCHEMA` grouping loop
(src/agents/schema_linker.py:393-404 and 421-431), with its constant
score (0.3 / 0.1 there); description and synonyms are empty. -/
def groupRaw (score : ℚ) (rows : List RawRow) : List TableCtx :=
  rows.foldl (fun acc r => go acc r.table_name ⟨r.column_name, "", r.data_type, ""⟩ score) []
where go : List TableCtx → String → ColumnCtx → ℚ → List TableCtx
  | [], tname, col, sc => [⟨tname, [col], sc⟩]
  | a :: rest, tname, col, sc =>
    if a.table_name = tname then ⟨a.table_name, a.columns ++ [col], a.relevance_score⟩ :: rest
    else a :: go rest tname col sc

/-! ### Post-processing and fallback helpers -/

/-- `_filter_dataset_mixing` (src/agents/schema_linker.py:307-314):
exclude `SUPERSTORE_SALES` — the system is Olist-only. -/
def filter_dataset_mixing (tables : List TableCtx) : List TableCtx :=
  tables.filter (fun t => t.table_name ≠ "SUPERSTORE_SALES")

/-- The static one-hop FK map `FK_PARTNERS`
(src/agents/schema_linker.py:325-330). -/
def FK_PARTNERS (t : String) : List String :=
  if t = "ORDER_ITEMS" then ["ORDERS"]
  else if t = "ORDER_REVIEWS" then ["ORDERS"]
  else if t = "ORDER_PAYMENTS" then ["ORDERS"]
  else if t = "ORDERS" then ["CUSTOMERS"]
  else []

/-- First-occurrence deduplication (the Python `needed` set collected in
iteration order; the set's own iteration order is unspecified, first
insertion order is the modelling choice). -/
def dedupFirst : List String → List String
  | [] => []
  | x :: r => x :: (dedupFirst r).filter (· ≠ x)

/-- The `needed` set of `_supplement_related_tables`: declared partners of
present tables that are absent from the result. -/
def neededPartners (tables : List TableCtx) : List String :=
  let current_names := tables.map (·.table_name)
  dedupFirst (((tables.map (fun t => FK_PARTNERS t.table_name)).flatten).filter
    (fun p => !current_names.contains p))

/-- `_fetch_tables_by_name` (src/agents/schema_linker.py:350-407): prefer
`TABLE_DESCRIPTIONS` (score 0.4) when it yields rows, fall back to
`INFORMATION_SCHEMA` (score 0.3), return `[]` if both fail. -/
def fetch_tables_by_name (sess : LinkerSession) (table_names : List String) : List TableCtx :=
  if table_names = [] then []
  else
    let rawFallback :=
      match sess.rawByName table_names with
      | .ok rows => groupRaw (mkRat 3 10) rows
      | .error _ => []
    match sess.descByName table_names with
    | .ok rows => if rows ≠ [] then groupMeta (mkRat 2 5) rows else rawFallback
    | .error _ => rawFallback

/-- `_supplement_related_tables` (src/agents/schema_linker.py:317-347);
the `limit` parameter is unused in the source body as well. -/
def supplement_related_tables (sess : LinkerSession) (tables : List TableCtx)
    (_limit : Nat) : List TableCtx :=
  let needed := neededPartners tables
  if needed = [] then tables
  else tables ++ fetch_tables_by_name sess needed

/-- `_get_all_tables` (src/agents/schema_linker.py:410-437): all RAW
tables at score 0.1, truncated to `limit`; no dataset-mixing filter. -/
def get_all_tables (sess : LinkerSession) (limit : Nat) : List TableCtx :=
  match sess.rawAll with
  | .ok rows => (groupRaw (mkRat 1 10) rows).take limit
  | .error _ => []

/-- The `_STOPWORDS` set of `_fallback_keyword_search`
(src/agents/schema_linker.py:226-234). -/
def STOPWORDS : List String :=
  ["what", "which", "where", "when", "who", "how", "many", "much",
   "have", "been", "that", "this", "with", "from", "they", "each",
   "highest", "lowest", "average", "total", "count", "find", "show",
   "list", "give", "most", "least", "more", "than", "over", "last",
   "first", "were", "does", "also", "into", "some", "only", "their",
   "there", "these", "those", "very", "just", "been", "will", "would",
   "could", "should", "across", "between", "within", "using", "based"]

/-- Keyword extraction of `_fallback_keyword_search`
(src/agents/schema_linker.py:237-243). -/
def extractKeywords (question : String) : List String :=
  let raw_words := (splitWS (pyLowerL question.data)).map
    (fun w => String.mk (stripCharsL ['\x27', '"', '?', ','] w))
  let keywords := raw_words.filter (fun w => w.length > 3 && !STOPWORDS.contains w)
  let keywords := if keywords = [] then raw_words.filter (fun w => w.length > 3) else keywords
  if keywords = [] then raw_words else keywords

/-- The keyword tier's direct matches, before FK supplementation
(src/agents/schema_linker.py:265-295): group the rows, sort by
`_match_count` descending (stable), drop the internal count, truncate to
`limit`, and apply the dataset-mixing filter. -/
def keywordDirect (rows : List KeywordRow) (limit : Nat) : List TableCtx :=
  filter_dataset_mixing
    (((sortDescBy (fun a b => decide (b.match_count < a.match_count))
        (rows.foldl kwInsert [])).map kwToTable).take limit)

/-- `_fallback_keyword_search` (src/agents/schema_linker.py:218-304),
with the tier trace recorded. -/
def fallback_keyword_search_t (sess : LinkerSession) (question : String)
    (limit : Nat) : List TableCtx × List Tier :=
  let keywords := extractKeywords question
  match sess.keywordQuery (keywords.take 10) (limit * 15) with
  | .error _ => (get_all_tables sess limit, [Tier.keyword, Tier.fullCatalog])
  | .ok rows =>
    if rows = [] then (get_all_tables sess limit, [Tier.keyword, Tier.fullCatalog])
    else
      (supplement_related_tables sess (keywordDirect rows limit) limit, [Tier.keyword])

/-- `link_schema` (src/agents/schema_linker.py:36-215) instrumented with
the tiers entered.  The error classification of lines 197-215 keys on the
lowered exception message. -/
def link_schema_t (sess : LinkerSession) (question : String) (limit0 : Int) :
    List TableCtx × List Tier :=
  if isBlank question then ([], [])
  else
    let limit : Nat := if limit0 < 1 then 5 else limit0.toNat
    match sess.search with
    | .results rows =>
      if rows = [] then ([], [Tier.semantic])
      else
        let tables_list :=
          sortDescBy (fun a b => decide (b.relevance_score < a.relevance_score))
            ((rows.foldl semInsert []).map semToTable)
        ((filter_dataset_mixing tables_list).take limit, [Tier.semantic])
    | .raised msg =>
      let m := String.mk (pyLowerL msg.data)
      if containsSub m "does not exist" && containsSub m "schema_search_service" then
        let p := fallback_keyword_search_t sess question limit
        (p.1, Tier.semantic :: p.2)
      else if containsSub m "table_descriptions" then ([], [Tier.semantic])
      else
        let p := fallback_keyword_search_t sess question limit
        (p.1, Tier.semantic :: p.2)

/-- `link_schema`: the value the caller receives. -/
def link_schema (sess : LinkerSession) (question : String) (limit0 : Int) :
    List TableCtx :=
  (link_schema_t sess question limit0).1

/-! ## Validator (src/agents/validator.py)

The warehouse gateway is an external collaborator; `EXPLAIN` and the lazy
`session.sql` execution are oracles indexed by the attempt number (the
warehouse may answer differently on every call) and by the SQL text.
`none` / `.ok` means the call succeeded; a message is the raw exception
text, which the code reduces with `_extract_error_message`. -/

/-- `ExecutionOutcome` (spec §3): the terminal tagged union returned by
the Validator/Executor.  `success` is the lazy DataFrame handle. -/
inductive ExecOutcome where
  | success
  | failure (message : String)
deriving DecidableEq

/-- The warehouse gateway for one `validate_and_execute` call.  `none`
means the call succeeded, `some msg` is the raw exception text. -/
structure Gateway where
  explain : Nat → String → Option String
  run : Nat → String → Option String

/-- Python `text.split('\n')` (keeps empty segments). -/
def splitOnNL : List Char → List (List Char)
  | [] => [[]]
  | c :: r =>
    if c = '\n' then [] :: splitOnNL r
    else match splitOnNL r with
      | [] => [[c]]
      | w :: ws => (c :: w) :: ws

/-- Remove a leading literal if present (Python
`if s.startswith(p): s = s[len(p):]`). -/
def removeHead (pre l : List Char) : List Char :=
  if listStarts pre l then l.drop pre.length else l

/-- `_extract_error_message` (src/agents/validator.py:361-421): first line
containing `error` (case-insensitively) with known prefixes removed, else
the first non-blank line, else the first 200 characters. -/
def extract_error_message (error_text : String) : String :=
  if error_text = "" then "Unknown error (empty error message)"
  else
    let lines := splitOnNL error_text.data
    match lines.find? (fun line => containsSubL "error".data (pyLowerL line)) with
    | some line =>
      let cleaned := pyStripL line
      let cleaned := removeHead "Error: ".data cleaned
      let cleaned := removeHead "SnowflakeError: ".data cleaned
      let cleaned := removeHead "Exception: ".data cleaned
      String.mk cleaned
    | none =>
      match lines.find? (fun line => pyStripL line ≠ []) with
      | some line => String.mk (pyStripL line)
      | none => String.mk (pyStripL (error_text.data.take 200))

/-- The enriched question `_retry_with_error_feedback` builds
(src/agents/validator.py:324-339). -/
def enriched_question (question error_message previous_sql : String) : String :=
  question ++ "\n\nPREVIOUS ATTEMPT FAILED WITH ERROR:\n" ++ error_message ++
  "\n\nFAILED SQL QUERY:\n" ++ previous_sql ++
  "\n\nPlease fix the SQL query to avoid this error. Review the schema carefully and ensure:\n" ++
  "- All table names are correct and exist in the schema\n" ++
  "- All column names are correct and exist in their respective tables\n" ++
  "- Column references are properly qualified with table names in JOINs\n" ++
  "- Data types are compatible in comparisons and operations\n" ++
  "- Aggregation functions are used correctly\n" ++
  "- JOIN conditions reference valid foreign key relationships\n"

/-- `_retry_with_error_feedback` (src/agents/validator.py:285-358): call
`generate_sql` on the enriched question with the same schema context;
return the previous SQL when regeneration comes back blank. -/
def retry_with_error_feedback (llm : LLM) (question : String)
    (schema_context : List TableCtx) (error_message previous_sql : String) : String :=
  let new_sql := generate_sql llm (enriched_question question error_message previous_sql)
    schema_context []
  if isBlank new_sql then previous_sql else new_sql

/-- Result of one `validate_and_execute` call, instrumented with the
number of `EXPLAIN` calls, the number of execution calls, and the value of
`attempt` at the start of each loop iteration (the source only prints
these). -/
structure VOut where
  final_sql : String
  result : ExecOutcome
  explain_calls : Nat
  exec_calls : Nat
  attempts : List Nat
deriving DecidableEq

/-- The `while attempt <= max_retries` loop of `validate_and_execute`
(src/agents/validator.py:128-186).  `fuel` is `max_retries + 1 - attempt`,
which is positive exactly when the loop guard `attempt ≤ max_retries`
holds; the `fuel = 0` branch is the unreachable loop exit of lines
183-186. -/
def vloop (gw : Gateway) (llm : LLM) (question : String)
    (schema_context : List TableCtx) (max_retries : Nat) :
    Nat → String → Nat → Option String → VOut
  | 0, current_sql, _, last_error =>
      ⟨current_sql, .failure (last_error.getD "Unknown error occurred during validation"), 0, 0, []⟩
  | fuel + 1, current_sql, attempt, _ =>
    match gw.explain attempt current_sql with
    | none =>
      match gw.run attempt current_sql with
      | none => ⟨current_sql, .success, 1, 1, [attempt]⟩
      | some e =>
        let exec_error := extract_error_message e
        let last_error := "Execution error: " ++ exec_error
        if attempt < max_retries then
          let current_sql' :=
            retry_with_error_feedback llm question schema_context exec_error current_sql
          let r := vloop gw llm question schema_context max_retries fuel
            current_sql' (attempt + 1) (some last_error)
          ⟨r.final_sql, r.result, r.explain_calls + 1, r.exec_calls + 1, attempt :: r.attempts⟩
        else ⟨current_sql, .failure last_error, 1, 1, [attempt]⟩
    | some e =>
      let error_message := extract_error_message e
      if attempt < max_retries then
        let current_sql' :=
          retry_with_error_feedback llm question schema_context error_message current_sql
        let r := vloop gw llm question schema_context max_retries fuel
          current_sql' (attempt + 1) (some error_message)
        ⟨r.final_sql, r.result, r.explain_calls + 1, r.exec_calls, attempt :: r.attempts⟩
      else ⟨current_sql, .failure error_message, 1, 0, [attempt]⟩

/-- `validate_and_execute` (src/agents/validator.py:56-186). -/
def validate_and_execute (gw : Gateway) (llm : LLM) (sql question : String)
    (schema_context : List TableCtx) (max_retries0 : Int) : VOut :=
  if isBlank sql then
    ⟨sql, .failure "Empty SQL query provided to validator. Cannot validate empty query.", 0, 0, []⟩
  else
    let max_retries : Nat := if max_retries0 < 0 then 0 else max_retries0.toNat
    vloop gw llm question schema_context max_retries (max_retries + 1) sql 0 none

/-! ## Lemmas about the validator loop -/

/-- `generate_sql` returns `""` or a non-blank string: every failure path
returns the empty string and the success path is guarded by a blank
check. -/
theorem generate_sql_blank_dichotomy (llm : LLM) (question : String)
    (schema_context : List TableCtx) (golden_examples : List GoldenExample) :
    generate_sql llm question schema_context golden_examples = "" ∨
    isBlank (generate_sql llm question schema_context golden_examples) = false := by
  unfold generate_sql
  dsimp only
  split
  · exact Or.inl rfl
  split
  · exact Or.inl rfl
  split
  · exact Or.inl rfl
  · exact Or.inl rfl
  split
  · exact Or.inl rfl
  split
  · exact Or.inl rfl
  · rename_i h
    exact Or.inr (by simpa using h)

/-- Combined invariant of the `while` loop of `validate_and_execute`:
with `fuel` iterations left, at most `fuel` EXPLAIN calls and at most
`fuel` execution calls are made; the recorded attempt values start at the
current `attempt` and strictly increase. -/
theorem vloop_invariant (gw : Gateway) (llm : LLM) (question : String)
    (schema_context : List TableCtx) (max_retries : Nat) :
    ∀ (fuel : Nat) (sql : String) (att : Nat) (le : Option String),
      (vloop gw llm question schema_context max_retries fuel sql att le).explain_calls ≤ fuel ∧
      (vloop gw llm question schema_context max_retries fuel sql att le).exec_calls ≤ fuel ∧
      ((vloop gw llm question schema_context max_retries fuel sql att le).attempts = [] ∨
        ∃ tl, (vloop gw llm question schema_context max_retries fuel sql att le).attempts = att :: tl) ∧
      List.Chain' (· < ·) (vloop gw llm question schema_context max_retries fuel sql att le).attempts := by
  intro fuel
  induction fuel with
  | zero =>
    intro sql att le
    refine ⟨Nat.le_refl 0, Nat.le_refl 0, Or.inl rfl, ?_⟩
    simp [vloop]
  | succ fuel ih =>
    intro sql att le
    rw [vloop]
    cases hx : gw.explain att sql with
    | none =>
      cases hr : gw.run att sql with
      | none =>
        dsimp only
        exact ⟨by omega, by omega, Or.inr ⟨[], rfl⟩, by simp⟩
      | some e =>
        dsimp only
        by_cases hlt : att < max_retries
        · rw [if_pos hlt]
          dsimp only
          obtain ⟨h1, h2, h3, h4⟩ := ih
            (retry_with_error_feedback llm question schema_context (extract_error_message e) sql)
            (att + 1) (some ("Execution error: " ++ extract_error_message e))
          refine ⟨by omega, by omega, Or.inr ⟨_, rfl⟩, ?_⟩
          rcases h3 with h3 | ⟨tl, h3⟩
          · simp [h3]
          · rw [h3] at h4 ⊢
            rw [List.chain'_cons]
            exact ⟨by omega, h4⟩
        · rw [if_neg hlt]
          dsimp only
          exact ⟨by omega, by omega, Or.inr ⟨[], rfl⟩, by simp⟩
    | some e =>
      dsimp only
      by_cases hlt : att < max_retries
      · rw [if_pos hlt]
        dsimp only
        obtain ⟨h1, h2, h3, h4⟩ := ih
          (retry_with_error_feedback llm question schema_context (extract_error_message e) sql)
          (att + 1) (some (extract_error_message e))
        refine ⟨by omega, by omega, Or.inr ⟨_, rfl⟩, ?_⟩
        rcases h3 with h3 | ⟨tl, h3⟩
        · simp [h3]
        · rw [h3] at h4 ⊢
          rw [List.chain'_cons]
          exact ⟨by omega, h4⟩
      · rw [if_neg hlt]
        dsimp only
        exact ⟨by omega, by omega, Or.inr ⟨[], rfl⟩, by simp⟩

/-! ## Claim theorems: validator -/

/-- C1: for every non-negative `max_retries = N` and all inputs and
warehouse/LLM behaviours, `validate_and_execute` makes at most `N + 1`
EXPLAIN (validate) calls and at most `N + 1` execution calls, the
`attempt` counter recorded at each loop iteration strictly increases, and
the call terminates in a `success` or `failure` outcome. -/
theorem retry_bound_C1 (gw : Gateway) (llm : LLM) (sql question : String)
    (schema_context : List TableCtx) (N : Nat) :
    (validate_and_execute gw llm sql question schema_context (N : Int)).explain_calls ≤ N + 1 ∧
    (validate_and_execute gw llm sql question schema_context (N : Int)).exec_calls ≤ N + 1 ∧
    List.Chain' (· < ·) (validate_and_execute gw llm sql question schema_context (N : Int)).attempts ∧
    ((validate_and_execute gw llm sql question schema_context (N : Int)).result = .success ∨
      ∃ m, (validate_and_execute gw llm sql question schema_context (N : Int)).result = .failure m) := by
  unfold validate_and_execute
  split
  · dsimp only
    exact ⟨by omega, by omega, by simp, Or.inr ⟨_, rfl⟩⟩
  · dsimp only
    have hneg : ¬((N : Int) < 0) := by omega
    rw [if_neg hneg]
    have hN : ((N : Int)).toNat = N := by omega
    rw [hN]
    obtain ⟨h1, h2, _, h4⟩ :=
      vloop_invariant gw llm question schema_context N (N + 1) sql 0 none
    refine ⟨h1, h2, h4, ?_⟩
    cases hres : (vloop gw llm question schema_context N (N + 1) sql 0 none).result with
    | success => exact Or.inl rfl
    | failure m => exact Or.inr ⟨m, rfl⟩

/-- C8: in every retry step (a failed iteration with retries remaining,
whether the failure came from EXPLAIN validation or from execution), the
next iteration runs with `attempt + 1`, and with `current_sql` set to the
regenerated SQL when regeneration is non-empty and kept unchanged
(`previous_sql`) when regeneration returns empty. -/
theorem retry_step_C8 (gw : Gateway) (llm : LLM) (question : String)
    (schema_context : List TableCtx) (max_retries fuel : Nat) (sql : String)
    (att : Nat) (le : Option String) (msg : String)
    (hatt : att < max_retries) :
    (generate_sql llm (enriched_question question (extract_error_message msg) sql)
        schema_context [] ≠ "" →
      retry_with_error_feedback llm question schema_context (extract_error_message msg) sql =
        generate_sql llm (enriched_question question (extract_error_message msg) sql)
          schema_context []) ∧
    (generate_sql llm (enriched_question question (extract_error_message msg) sql)
        schema_context [] = "" →
      retry_with_error_feedback llm question schema_context (extract_error_message msg) sql =
        sql) ∧
    (gw.explain att sql = some msg →
      vloop gw llm question schema_context max_retries (fuel + 1) sql att le =
        ⟨(vloop gw llm question schema_context max_retries fuel
            (retry_with_error_feedback llm question schema_context
              (extract_error_message msg) sql)
            (att + 1) (some (extract_error_message msg))).final_sql,
         (vloop gw llm question schema_context max_retries fuel
            (retry_with_error_feedback llm question schema_context
              (extract_error_message msg) sql)
            (att + 1) (some (extract_error_message msg))).result,
         (vloop gw llm question schema_context max_retries fuel
            (retry_with_error_feedback llm question schema_context
              (extract_error_message msg) sql)
            (att + 1) (some (extract_error_message msg))).explain_calls + 1,
         (vloop gw llm question schema_context max_retries fuel
            (retry_with_error_feedback llm question schema_context
              (extract_error_message msg) sql)
            (att + 1) (some (extract_error_message msg))).exec_calls,
         att :: (vloop gw llm question schema_context max_retries fuel
            (retry_with_error_feedback llm question schema_context
              (extract_error_message msg) sql)
            (att + 1) (some (extract_error_message msg))).attempts⟩) ∧
    (gw.explain att sql = none → gw.run att sql = some msg →
      vloop gw llm question schema_context max_retries (fuel + 1) sql att le =
        ⟨(vloop gw llm question schema_context max_retries fuel
            (retry_with_error_feedback llm question schema_context
              (extract_error_message msg) sql)
            (att + 1) (some ("Execution error: " ++ extract_error_message msg))).final_sql,
         (vloop gw llm question schema_context max_retries fuel
            (retry_with_error_feedback llm question schema_context
              (extract_error_message msg) sql)
            (att + 1) (some ("Execution error: " ++ extract_error_message msg))).result,
         (vloop gw llm question schema_context max_retries fuel
            (retry_with_error_feedback llm question schema_context
              (extract_error_message msg) sql)
            (att + 1) (some ("Execution error: " ++ extract_error_message msg))).explain_calls + 1,
         (vloop gw llm question schema_context max_retries fuel
            (retry_with_error_feedback llm question schema_context
              (extract_error_message msg) sql)
            (att + 1) (some ("Execution error: " ++ extract_error_message msg))).exec_calls + 1,
         att :: (vloop gw llm question schema_context max_retries fuel
            (retry_with_error_feedback llm question schema_context
              (extract_error_message msg) sql)
            (att + 1) (some ("Execution error: " ++
              extract_error_message msg))).attempts⟩) := by
  refine ⟨?_, ?_, ?_, ?_⟩
  · intro hne
    unfold retry_with_error_feedback
    dsimp only
    rcases generate_sql_blank_dichotomy llm
        (enriched_question question (extract_error_message msg) sql) schema_context [] with h | h
    · exact absurd h hne
    · rw [h]
      simp
  · intro heq
    unfold retry_with_error_feedback
    dsimp only
    rw [heq]
    have hb : isBlank "" = true := by decide
    rw [hb]
    simp
  · intro hfail
    rw [vloop, hfail]
    dsimp only
    rw [if_pos hatt]
  · intro hex hrun
    rw [vloop, hex]
    dsimp only
    rw [hrun]
    dsimp only
    rw [if_pos hatt]

/-- Auxiliary witness fixtures: a gateway whose EXPLAIN always fails and
an LLM that is down (regeneration always returns `""`). -/
def gwAlwaysFail : Gateway :=
  { explain := fun _ _ => some "SQL compilation error: witness"
    run := fun _ _ => some "unreachable" }

/-- A gateway whose EXPLAIN validation passes and whose execution always
fails. -/
def gwExecFail : Gateway :=
  { explain := fun _ _ => none
    run := fun _ _ => some "Execution failure: witness" }

/-- An LLM oracle that always raises. -/
def llmRaise : LLM := ⟨fun _ => .raised "llm down"⟩

/-- Witness for C8 at concrete inputs, exercising both failure branches:
with a down LLM, regeneration returns `""` and the retry step keeps
`current_sql` unchanged while `attempt` increments — once for a failed
EXPLAIN (`gwAlwaysFail`) and once for a failed execution
(`gwExecFail`). -/
theorem retry_step_C8_witness :
    (generate_sql llmRaise (enriched_question "q"
        (extract_error_message "SQL compilation error: witness") "SELECT x") [⟨"T", [⟨"c", "", "", ""⟩], mkRat 1 2⟩] [] = "" →
      retry_with_error_feedback llmRaise "q" [⟨"T", [⟨"c", "", "", ""⟩], mkRat 1 2⟩]
        (extract_error_message "SQL compilation error: witness") "SELECT x" = "SELECT x") ∧
    0 < 2 ∧
    gwAlwaysFail.explain 0 "SELECT x" = some "SQL compilation error: witness" ∧
    vloop gwAlwaysFail llmRaise "q" [⟨"T", [⟨"c", "", "", ""⟩], mkRat 1 2⟩] 2 2 "SELECT x" 0 none =
      ⟨(vloop gwAlwaysFail llmRaise "q" [⟨"T", [⟨"c", "", "", ""⟩], mkRat 1 2⟩] 2 1
          (retry_with_error_feedback llmRaise "q" [⟨"T", [⟨"c", "", "", ""⟩], mkRat 1 2⟩]
            (extract_error_message "SQL compilation error: witness") "SELECT x")
          1 (some (extract_error_message "SQL compilation error: witness"))).final_sql,
       (vloop gwAlwaysFail llmRaise "q" [⟨"T", [⟨"c", "", "", ""⟩], mkRat 1 2⟩] 2 1
          (retry_with_error_feedback llmRaise "q" [⟨"T", [⟨"c", "", "", ""⟩], mkRat 1 2⟩]
            (extract_error_message "SQL compilation error: witness") "SELECT x")
          1 (some (extract_error_message "SQL compilation error: witness"))).result,
       (vloop gwAlwaysFail llmRaise "q" [⟨"T", [⟨"c", "", "", ""⟩], mkRat 1 2⟩] 2 1
          (retry_with_error_feedback llmRaise "q" [⟨"T", [⟨"c", "", "", ""⟩], mkRat 1 2⟩]
            (extract_error_message "SQL compilation error: witness") "SELECT x")
          1 (some (extract_error_message "SQL compilation error: witness"))).explain_calls + 1,
       (vloop gwAlwaysFail llmRaise "q" [⟨"T", [⟨"c", "", "", ""⟩], mkRat 1 2⟩] 2 1
          (retry_with_error_feedback llmRaise "q" [⟨"T", [⟨"c", "", "", ""⟩], mkRat 1 2⟩]
            (extract_error_message "SQL compilation error: witness") "SELECT x")
          1 (some (extract_error_message "SQL compilation error: witness"))).exec_calls,
       0 :: (vloop gwAlwaysFail llmRaise "q" [⟨"T", [⟨"c", "", "", ""⟩], mkRat 1 2⟩] 2 1
          (retry_with_error_feedback llmRaise "q" [⟨"T", [⟨"c", "", "", ""⟩], mkRat 1 2⟩]
            (extract_error_message "SQL compilation error: witness") "SELECT x")
          1 (some (extract_error_message "SQL compilation error: witness"))).attempts⟩ ∧
    gwExecFail.explain 0 "SELECT x" = none ∧
    gwExecFail.run 0 "SELECT x" = some "Execution failure: witness" ∧
    vloop gwExecFail llmRaise "q" [⟨"T", [⟨"c", "", "", ""⟩], mkRat 1 2⟩] 2 2 "SELECT x" 0 none =
      ⟨(vloop gwExecFail llmRaise "q" [⟨"T", [⟨"c", "", "", ""⟩], mkRat 1 2⟩] 2 1
          (retry_with_error_feedback llmRaise "q" [⟨"T", [⟨"c", "", "", ""⟩], mkRat 1 2⟩]
            (extract_error_message "Execution failure: witness") "SELECT x")
          1 (some ("Execution error: " ++
            extract_error_message "Execution failure: witness"))).final_sql,
       (vloop gwExecFail llmRaise "q" [⟨"T", [⟨"c", "", "", ""⟩], mkRat 1 2⟩] 2 1
          (retry_with_error_feedback llmRaise "q" [⟨"T", [⟨"c", "", "", ""⟩], mkRat 1 2⟩]
            (extract_error_message "Execution failure: witness") "SELECT x")
          1 (some ("Execution error: " ++
            extract_error_message "Execution failure: witness"))).result,
       (vloop gwExecFail llmRaise "q" [⟨"T", [⟨"c", "", "", ""⟩], mkRat 1 2⟩] 2 1
          (retry_with_error_feedback llmRaise "q" [⟨"T", [⟨"c", "", "", ""⟩], mkRat 1 2⟩]
            (extract_error_message "Execution failure: witness") "SELECT x")
          1 (some ("Execution error: " ++
            extract_error_message "Execution failure: witness"))).explain_calls + 1,
       (vloop gwExecFail llmRaise "q" [⟨"T", [⟨"c", "", "", ""⟩], mkRat 1 2⟩] 2 1
          (retry_with_error_feedback llmRaise "q" [⟨"T", [⟨"c", "", "", ""⟩], mkRat 1 2⟩]
            (extract_error_message "Execution failure: witness") "SELECT x")
          1 (some ("Execution error: " ++
            extract_error_message "Execution failure: witness"))).exec_calls + 1,
       0 :: (vloop gwExecFail llmRaise "q" [⟨"T", [⟨"c", "", "", ""⟩], mkRat 1 2⟩] 2 1
          (retry_with_error_feedback llmRaise "q" [⟨"T", [⟨"c", "", "", ""⟩], mkRat 1 2⟩]
            (extract_error_message "Execution failure: witness") "SELECT x")
          1 (some ("Execution error: " ++
            extract_error_message "Execution failure: witness"))).attempts⟩ := by
  have h1 := retry_step_C8 gwAlwaysFail llmRaise "q" [⟨"T", [⟨"c", "", "", ""⟩], mkRat 1 2⟩]
    2 1 "SELECT x" 0 none "SQL compilation error: witness" (by omega)
  have h2 := retry_step_C8 gwExecFail llmRaise "q" [⟨"T", [⟨"c", "", "", ""⟩], mkRat 1 2⟩]
    2 1 "SELECT x" 0 none "Execution failure: witness" (by omega)
  exact ⟨h1.2.1, by omega, rfl, h1.2.2.1 rfl, rfl, rfl, h2.2.2.2 rfl rfl⟩

/-- C4: empty-input safety at each stage's public interface: a blank
question yields an empty schema context, an empty schema context yields
empty SQL, and a blank candidate SQL yields a `failure` without any
warehouse call. -/
theorem empty_input_safety_C4 :
    (∀ (sess : LinkerSession) (question : String) (limit : Int),
        isBlank question → link_schema sess question limit = []) ∧
    (∀ (llm : LLM) (question : String) (golden_examples : List GoldenExample),
        generate_sql llm question [] golden_examples = "") ∧
    (∀ (gw : Gateway) (llm : LLM) (sql question : String)
        (schema_context : List TableCtx) (max_retries : Int),
        isBlank sql →
        validate_and_execute gw llm sql question schema_context max_retries =
          ⟨sql, .failure "Empty SQL query provided to validator. Cannot validate empty query.",
           0, 0, []⟩) := by
  refine ⟨?_, ?_, ?_⟩
  · intro sess question limit hq
    unfold link_schema link_schema_t
    rw [if_pos hq]
  · intro llm question golden_examples
    unfold generate_sql
    split
    · rfl
    · rw [if_pos rfl]
  · intro gw llm sql question schema_context max_retries hs
    unfold validate_and_execute
    rw [if_pos hs]

/-- Witness fixture: a session on which `link_schema` takes the keyword
fallback tier (generic search failure), matches `ORDER_ITEMS` and
`PRODUCTS`, and supplements the missing FK partner `ORDERS` from the
metadata store. -/
def sessKeywordFK : LinkerSession :=
  { search := .raised "some other failure"
    keywordQuery := fun _ _ => .ok
      [⟨"ORDER_ITEMS", "PRICE", some "d", some "VARCHAR", some "", 2⟩,
       ⟨"ORDER_ITEMS", "FREIGHT_VALUE", some "d", some "VARCHAR", some "", 2⟩,
       ⟨"PRODUCTS", "PRODUCT_ID", some "d", some "VARCHAR", some "", 1⟩]
    descByName := fun names => .ok
      (if names.contains "ORDERS" then
        [⟨"ORDERS", "ORDER_ID", some "md", some "VARCHAR", some "s"⟩,
         ⟨"ORDERS", "ORDER_STATUS", some "md", some "VARCHAR", some "s"⟩]
       else [])
    rawByName := fun _ => .error "x"
    rawAll := .error "x" }

/-- Witness fixture: a session on which `link_schema` reaches the
full-catalog tier (search fails generically, the keyword query returns no
rows) and the RAW catalog contains the bundled `SUPERSTORE_SALES`
dataset, as `scripts/ingest_data.py` loads it into the RAW schema. -/
def sessFullCatalog : LinkerSession :=
  { search := .raised "boom failure"
    keywordQuery := fun _ _ => .ok []
    descByName := fun _ => .error "x"
    rawByName := fun _ => .error "x"
    rawAll := .ok [⟨"SUPERSTORE_SALES", "ROW_ID", "TEXT"⟩, ⟨"SUPERSTORE_SALES", "SALES", "TEXT"⟩] }

/-- Witness fixture: the search service raises an error message that
mentions `TABLE_DESCRIPTIONS`; the keyword tier and full catalog would
both yield rows but are never consulted. -/
def sessTableDescErr : LinkerSession :=
  { search := .raised "TABLE_DESCRIPTIONS is missing"
    keywordQuery := fun _ _ => .ok [⟨"CUSTOMERS", "CITY", some "d", some "T", some "", 1⟩]
    descByName := fun _ => .error "x"
    rawByName := fun _ => .error "x"
    rawAll := .ok [⟨"CUSTOMERS", "CITY", "TEXT"⟩] }

/-- A minimal linker session for witnesses (every collaborator fails). -/
def sessTrivial : LinkerSession :=
  { search := .raised "x"
    keywordQuery := fun _ _ => .error "x"
    descByName := fun _ => .error "x"
    rawByName := fun _ => .error "x"
    rawAll := .error "x" }

/-- Witness for C4 at concrete inputs: the whitespace-only question `" "`,
an empty schema context, and the empty candidate SQL. -/
theorem empty_input_safety_C4_witness :
    link_schema sessTrivial " " 5 = [] ∧
    generate_sql llmRaise "q" [] [] = "" ∧
    validate_and_execute gwAlwaysFail llmRaise "" "q" [] 3 =
      ⟨"", .failure "Empty SQL query provided to validator. Cannot validate empty query.",
       0, 0, []⟩ :=
  ⟨empty_input_safety_C4.1 sessTrivial " " 5 (by decide),
   empty_input_safety_C4.2.1 llmRaise "q" [],
   empty_input_safety_C4.2.2 gwAlwaysFail llmRaise "" "q" [] 3 (by decide)⟩

/-! ## Lemmas about the Schema Linker -/

theorem mem_insertDesc (gt : α → α → Bool) (acc : List α) (y x : α) :
    x ∈ sortDescBy.insertDesc gt acc y ↔ x ∈ acc ∨ x = y := by
  induction acc with
  | nil => simp [sortDescBy.insertDesc]
  | cons a rest ih =>
    rw [sortDescBy.insertDesc]
    split
    · simp only [List.mem_cons]
      tauto
    · simp only [List.mem_cons, ih]
      tauto

theorem mem_sortDescBy (gt : α → α → Bool) (l : List α) (x : α) :
    x ∈ sortDescBy gt l ↔ x ∈ l := by
  have h : ∀ (l' : List α) (acc : List α),
      x ∈ l'.foldl (fun acc y => sortDescBy.insertDesc gt acc y) acc ↔ x ∈ acc ∨ x ∈ l' := by
    intro l'
    induction l' with
    | nil => intro acc; simp
    | cons a rest ih =>
      intro acc
      rw [List.foldl_cons, ih, mem_insertDesc]
      simp only [List.mem_cons]
      tauto
  unfold sortDescBy
  rw [h]
  simp

theorem groupMeta_go_prop (Pn : String → Prop) (sc : ℚ) :
    ∀ (acc : List TableCtx) (tname : String) (col : ColumnCtx),
      (∀ e ∈ acc, Pn e.table_name ∧ e.columns ≠ [] ∧ e.relevance_score = sc) →
      Pn tname →
      ∀ e ∈ groupMeta.go acc tname col sc,
        Pn e.table_name ∧ e.columns ≠ [] ∧ e.relevance_score = sc := by
  intro acc
  induction acc with
  | nil =>
    intro tname col _ ht e he
    rw [groupMeta.go] at he
    simp only [List.mem_singleton] at he
    subst he
    exact ⟨ht, by simp, rfl⟩
  | cons a rest ih =>
    intro tname col hacc ht e he
    rw [groupMeta.go] at he
    split at he
    · rcases List.mem_cons.mp he with he | he
      · obtain ⟨h1, _, h3⟩ := hacc a (List.mem_cons_self a rest)
        subst he
        exact ⟨h1, by simp, h3⟩
      · exact hacc e (List.mem_cons_of_mem _ he)
    · rcases List.mem_cons.mp he with he | he
      · subst he
        exact hacc e (List.mem_cons_self e rest)
      · exact ih tname col (fun e' he' => hacc e' (List.mem_cons_of_mem _ he')) ht e he

theorem groupMeta_prop (score : ℚ) (rows : List MetaRow) (Pn : String → Prop)
    (hrows : ∀ r ∈ rows, Pn r.table_name) :
    ∀ e ∈ groupMeta score rows,
      Pn e.table_name ∧ e.columns ≠ [] ∧ e.relevance_score = score := by
  have h : ∀ (rows' : List MetaRow) (acc : List TableCtx),
      (∀ r ∈ rows', Pn r.table_name) →
      (∀ e ∈ acc, Pn e.table_name ∧ e.columns ≠ [] ∧ e.relevance_score = score) →
      ∀ e ∈ rows'.foldl (fun acc r => groupMeta.go acc r.table_name
          ⟨r.column_name, r.description.getD "", r.data_type.getD "", r.synonyms.getD ""⟩
          score) acc,
        Pn e.table_name ∧ e.columns ≠ [] ∧ e.relevance_score = score := by
    intro rows'
    induction rows' with
    | nil => intro acc _ hacc e he; exact hacc e he
    | cons r rest ih =>
      intro acc hrows' hacc e he
      rw [List.foldl_cons] at he
      exact ih _ (fun r' hr' => hrows' r' (List.mem_cons_of_mem _ hr'))
        (groupMeta_go_prop Pn score acc r.table_name _ hacc
          (hrows' r (List.mem_cons_self r rest))) e he
  intro e he
  exact h rows [] hrows (by simp) e he

theorem groupRaw_go_prop (Pn : String → Prop) (sc : ℚ) :
    ∀ (acc : List TableCtx) (tname : String) (col : ColumnCtx),
      (∀ e ∈ acc, Pn e.table_name ∧ e.columns ≠ [] ∧ e.relevance_score = sc) →
      Pn tname →
      ∀ e ∈ groupRaw.go acc tname col sc,
        Pn e.table_name ∧ e.columns ≠ [] ∧ e.relevance_score = sc := by
  intro acc
  induction acc with
  | nil =>
    intro tname col _ ht e he
    rw [groupRaw.go] at he
    simp only [List.mem_singleton] at he
    subst he
    exact ⟨ht, by simp, rfl⟩
  | cons a rest ih =>
    intro tname col hacc ht e he
    rw [groupRaw.go] at he
    split at he
    · rcases List.mem_cons.mp he with he | he
      · obtain ⟨h1, _, h3⟩ := hacc a (List.mem_cons_self a rest)
        subst he
        exact ⟨h1, by simp, h3⟩
      · exact hacc e (List.mem_cons_of_mem _ he)
    · rcases List.mem_cons.mp he with he | he
      · subst he
        exact hacc e (List.mem_cons_self e rest)
      · exact ih tname col (fun e' he' => hacc e' (List.mem_cons_of_mem _ he')) ht e he

theorem groupRaw_prop (score : ℚ) (rows : List RawRow) (Pn : String → Prop)
    (hrows : ∀ r ∈ rows, Pn r.table_name) :
    ∀ e ∈ groupRaw score rows,
      Pn e.table_name ∧ e.columns ≠ [] ∧ e.relevance_score = score := by
  have h : ∀ (rows' : List RawRow) (acc : List TableCtx),
      (∀ r ∈ rows', Pn r.table_name) →
      (∀ e ∈ acc, Pn e.table_name ∧ e.columns ≠ [] ∧ e.relevance_score = score) →
      ∀ e ∈ rows'.foldl (fun acc r => groupRaw.go acc r.table_name
          ⟨r.column_name, "", r.data_type, ""⟩ score) acc,
        Pn e.table_name ∧ e.columns ≠ [] ∧ e.relevance_score = score := by
    intro rows'
    induction rows' with
    | nil => intro acc _ hacc e he; exact hacc e he
    | cons r rest ih =>
      intro acc hrows' hacc e he
      rw [List.foldl_cons] at he
      exact ih _ (fun r' hr' => hrows' r' (List.mem_cons_of_mem _ hr'))
        (groupRaw_go_prop Pn score acc r.table_name _ hacc
          (hrows' r (List.mem_cons_self r rest))) e he
  intro e he
  exact h rows [] hrows (by simp) e he

theorem kwInsert_go_prop :
    ∀ (acc : List KwAgg) (tname : String) (col : ColumnCtx) (mc : Int),
      (∀ e ∈ acc, e.columns ≠ [] ∧ e.relevance_score = mkRat 1 2) →
      ∀ e ∈ kwInsert.go acc tname col mc,
        e.columns ≠ [] ∧ e.relevance_score = mkRat 1 2 := by
  intro acc
  induction acc with
  | nil =>
    intro tname col mc _ e he
    rw [kwInsert.go] at he
    simp only [List.mem_singleton] at he
    subst he
    exact ⟨by simp, rfl⟩
  | cons a rest ih =>
    intro tname col mc hacc e he
    rw [kwInsert.go] at he
    split at he
    · rcases List.mem_cons.mp he with he | he
      · obtain ⟨_, h2⟩ := hacc a (List.mem_cons_self a rest)
        subst he
        exact ⟨by simp, h2⟩
      · exact hacc e (List.mem_cons_of_mem _ he)
    · rcases List.mem_cons.mp he with he | he
      · subst he
        exact hacc e (List.mem_cons_self e rest)
      · exact ih tname col mc (fun e' he' => hacc e' (List.mem_cons_of_mem _ he')) e he

theorem kwFold_prop (rows : List KeywordRow) :
    ∀ e ∈ rows.foldl kwInsert [],
      e.columns ≠ [] ∧ e.relevance_score = mkRat 1 2 := by
  have h : ∀ (rows' : List KeywordRow) (acc : List KwAgg),
      (∀ e ∈ acc, e.columns ≠ [] ∧ e.relevance_score = mkRat 1 2) →
      ∀ e ∈ rows'.foldl kwInsert acc,
        e.columns ≠ [] ∧ e.relevance_score = mkRat 1 2 := by
    intro rows'
    induction rows' with
    | nil => intro acc hacc e he; exact hacc e he
    | cons r rest ih =>
      intro acc hacc e he
      rw [List.foldl_cons] at he
      refine ih _ ?_ e he
      intro e' he'
      exact kwInsert_go_prop acc r.table_name _ r.match_count hacc e' he'
  intro e he
  exact h rows [] (by simp) e he

theorem semInsert_go_prop :
    ∀ (acc : List SemAgg) (tname : String) (col : ColumnCtx) (sc : ℚ),
      (∀ e ∈ acc, e.columns ≠ []) →
      ∀ e ∈ semInsert.go acc tname col sc, e.columns ≠ [] := by
  intro acc
  induction acc with
  | nil =>
    intro tname col sc _ e he
    rw [semInsert.go] at he
    simp only [List.mem_singleton] at he
    subst he
    simp
  | cons a rest ih =>
    intro tname col sc hacc e he
    rw [semInsert.go] at he
    split at he
    · rcases List.mem_cons.mp he with he | he
      · subst he
        simp
      · exact hacc e (List.mem_cons_of_mem _ he)
    · rcases List.mem_cons.mp he with he | he
      · subst he
        exact hacc e (List.mem_cons_self e rest)
      · exact ih tname col sc (fun e' he' => hacc e' (List.mem_cons_of_mem _ he')) e he

theorem semFold_prop (rows : List SearchRow) :
    ∀ e ∈ rows.foldl semInsert [], e.columns ≠ [] := by
  have h : ∀ (rows' : List SearchRow) (acc : List SemAgg),
      (∀ e ∈ acc, e.columns ≠ []) →
      ∀ e ∈ rows'.foldl semInsert acc, e.columns ≠ [] := by
    intro rows'
    induction rows' with
    | nil => intro acc hacc e he; exact hacc e he
    | cons r rest ih =>
      intro acc hacc e he
      rw [List.foldl_cons] at he
      refine ih _ ?_ e he
      intro e' he'
      exact semInsert_go_prop acc _ _ _ hacc e' he'
  intro e he
  exact h rows [] (by simp) e he

/-- Everything `_filter_dataset_mixing` lets through differs from
`SUPERSTORE_SALES`. -/
theorem filter_dataset_mixing_prop (tables : List TableCtx) :
    ∀ t ∈ filter_dataset_mixing tables, t ∈ tables ∧ t.table_name ≠ "SUPERSTORE_SALES" := by
  intro t ht
  unfold filter_dataset_mixing at ht
  have := List.mem_filter.mp ht
  exact ⟨this.1, by simpa using this.2⟩

theorem mem_dedupFirst (l : List String) (p : String) :
    p ∈ dedupFirst l ↔ p ∈ l := by
  induction l with
  | nil => simp [dedupFirst]
  | cons x r ih =>
    rw [dedupFirst]
    by_cases hpx : p = x
    · subst hpx
      simp
    · simp only [List.mem_cons, List.mem_filter, ih]
      constructor
      · rintro (h | ⟨h, _⟩)
        · exact Or.inl h
        · exact Or.inr h
      · rintro (h | h)
        · exact Or.inl h
        · exact Or.inr ⟨h, by simpa using hpx⟩

/-- The static FK map only ever declares `ORDERS` or `CUSTOMERS` as a
partner. -/
theorem FK_PARTNERS_subset (s p : String) (hp : p ∈ FK_PARTNERS s) :
    p = "ORDERS" ∨ p = "CUSTOMERS" := by
  unfold FK_PARTNERS at hp
  split_ifs at hp <;> simp_all

theorem neededPartners_subset (tables : List TableCtx) (p : String)
    (hp : p ∈ neededPartners tables) : p = "ORDERS" ∨ p = "CUSTOMERS" := by
  unfold neededPartners at hp
  rw [mem_dedupFirst] at hp
  obtain ⟨h, _⟩ := List.mem_filter.mp hp
  obtain ⟨l, hl, hpl⟩ := List.mem_flatten.mp h
  obtain ⟨t, _, rfl⟩ := List.mem_map.mp hl
  exact FK_PARTNERS_subset _ _ hpl

/-- The metadata queries of `_fetch_tables_by_name` respect their
`WHERE table_name IN (...)` clause: every returned row carries one of the
requested names.  This is the query contract of the metadata/catalog
store (spec §6); the embedding states it as a hypothesis on the oracle. -/
def FetchRespectsNames (sess : LinkerSession) : Prop :=
  (∀ names rows, sess.descByName names = .ok rows → ∀ r ∈ rows, r.table_name ∈ names) ∧
  (∀ names rows, sess.rawByName names = .ok rows → ∀ r ∈ rows, r.table_name ∈ names)

theorem fetch_tables_prop (sess : LinkerSession) (names : List String)
    (hfetch : FetchRespectsNames sess) :
    ∀ e ∈ fetch_tables_by_name sess names,
      e.table_name ∈ names ∧ e.columns ≠ [] ∧
      (e.relevance_score = mkRat 2 5 ∨ e.relevance_score = mkRat 3 10) := by
  intro e he
  unfold fetch_tables_by_name at he
  split at he
  · simp at he
  · dsimp only at he
    cases hdesc : sess.descByName names with
    | ok rows =>
      rw [hdesc] at he
      dsimp only at he
      split at he
      · obtain ⟨h1, h2, h3⟩ := groupMeta_prop (mkRat 2 5) rows (fun n => n ∈ names)
          (hfetch.1 names rows hdesc) e he
        exact ⟨h1, h2, Or.inl h3⟩
      · cases hraw : sess.rawByName names with
        | ok rows' =>
          rw [hraw] at he
          obtain ⟨h1, h2, h3⟩ := groupRaw_prop (mkRat 3 10) rows' (fun n => n ∈ names)
            (hfetch.2 names rows' hraw) e he
          exact ⟨h1, h2, Or.inr h3⟩
        | error err =>
          rw [hraw] at he
          simp at he
    | error err =>
      rw [hdesc] at he
      dsimp only at he
      cases hraw : sess.rawByName names with
      | ok rows' =>
        rw [hraw] at he
        obtain ⟨h1, h2, h3⟩ := groupRaw_prop (mkRat 3 10) rows' (fun n => n ∈ names)
          (hfetch.2 names rows' hraw) e he
        exact ⟨h1, h2, Or.inr h3⟩
      | error err' =>
        rw [hraw] at he
        simp at he

/-- Columns-and-score part of `fetch_tables_by_name`, with no contract on
the store. -/
theorem fetch_tables_prop_noContract (sess : LinkerSession) (names : List String) :
    ∀ e ∈ fetch_tables_by_name sess names,
      e.columns ≠ [] ∧
      (e.relevance_score = mkRat 2 5 ∨ e.relevance_score = mkRat 3 10) := by
  intro e he
  unfold fetch_tables_by_name at he
  split at he
  · simp at he
  · dsimp only at he
    cases hdesc : sess.descByName names with
    | ok rows =>
      rw [hdesc] at he
      dsimp only at he
      split at he
      · obtain ⟨_, h2, h3⟩ := groupMeta_prop (mkRat 2 5) rows (fun _ => True)
          (fun _ _ => trivial) e he
        exact ⟨h2, Or.inl h3⟩
      · cases hraw : sess.rawByName names with
        | ok rows' =>
          rw [hraw] at he
          obtain ⟨_, h2, h3⟩ := groupRaw_prop (mkRat 3 10) rows' (fun _ => True)
            (fun _ _ => trivial) e he
          exact ⟨h2, Or.inr h3⟩
        | error err =>
          rw [hraw] at he
          simp at he
    | error err =>
      rw [hdesc] at he
      dsimp only at he
      cases hraw : sess.rawByName names with
      | ok rows' =>
        rw [hraw] at he
        obtain ⟨_, h2, h3⟩ := groupRaw_prop (mkRat 3 10) rows' (fun _ => True)
          (fun _ _ => trivial) e he
        exact ⟨h2, Or.inr h3⟩
      | error err' =>
        rw [hraw] at he
        simp at he

theorem mem_supplement (sess : LinkerSession) (tables : List TableCtx) (limit : Nat) :
    ∀ t ∈ supplement_related_tables sess tables limit,
      t ∈ tables ∨ t ∈ fetch_tables_by_name sess (neededPartners tables) := by
  intro t ht
  unfold supplement_related_tables at ht
  dsimp only at ht
  split at ht
  · exact Or.inl ht
  · exact List.mem_append.mp ht

/-- Everything the keyword tier returns when the `_match_count` query
yields rows: the direct matches survive the dataset-mixing filter, and
the supplemented tables are declared FK partners. -/
theorem fallback_no_superstore (sess : LinkerSession) (question : String) (limit : Nat)
    (hfetch : FetchRespectsNames sess)
    (hnc : Tier.fullCatalog ∉ (fallback_keyword_search_t sess question limit).2) :
    ∀ t ∈ (fallback_keyword_search_t sess question limit).1,
      t.table_name ≠ "SUPERSTORE_SALES" := by
  intro t ht
  unfold fallback_keyword_search_t at ht hnc
  dsimp only at ht hnc
  cases hkq : sess.keywordQuery ((extractKeywords question).take 10) (limit * 15) with
  | error e =>
    rw [hkq] at hnc
    simp at hnc
  | ok rows =>
    rw [hkq] at ht hnc
    dsimp only at ht hnc
    by_cases hre : rows = []
    · rw [if_pos hre] at hnc
      simp at hnc
    · rw [if_neg hre] at ht
      dsimp only at ht
      rcases mem_supplement _ _ _ t ht with hd | hf
      · exact (filter_dataset_mixing_prop _ t hd).2
      · obtain ⟨hn, _, _⟩ := fetch_tables_prop sess _ hfetch t hf
        rcases neededPartners_subset _ _ hn with h | h <;> rw [h] <;> decide

/-! ## Claim theorems: Schema Linker -/

/-- C2 (counterexample): on a session where the semantic search fails
with a generic error and the keyword query returns no rows, the
full-catalog tier produces the result, and it contains the excluded
`SUPERSTORE_SALES` table. -/
theorem dataset_isolation_C2_counterexample :
    "SUPERSTORE_SALES" ∈
      (link_schema sessFullCatalog "any question words" 5).map (·.table_name) ∧
    (link_schema_t sessFullCatalog "any question words" 5).2 =
      [Tier.semantic, Tier.keyword, Tier.fullCatalog] := by
  constructor
  · decide
  · decide

/-- C2 (amended): whenever the full-catalog tier is not entered — i.e.
the result is produced by the semantic tier or the keyword tier — the
returned SchemaContext never contains `SUPERSTORE_SALES`, provided the
metadata store respects the `WHERE table_name IN (...)` clauses of the
by-name fetches.  (The full-catalog tier applies no dataset-mixing
filter, which is what the counterexample exhibits.) -/
theorem dataset_isolation_C2_amended (sess : LinkerSession) (question : String)
    (limit0 : Int) (hfetch : FetchRespectsNames sess)
    (h12 : Tier.fullCatalog ∉ (link_schema_t sess question limit0).2) :
    ∀ t ∈ link_schema sess question limit0, t.table_name ≠ "SUPERSTORE_SALES" := by
  intro t ht
  unfold link_schema at ht
  unfold link_schema_t at ht h12
  by_cases hq : isBlank question = true
  · rw [if_pos hq] at ht
    simp at ht
  · rw [if_neg hq] at ht h12
    dsimp only at ht h12
    cases hs : sess.search with
    | results rows =>
      rw [hs] at ht
      dsimp only at ht
      by_cases hre : rows = []
      · rw [if_pos hre] at ht
        simp at ht
      · rw [if_neg hre] at ht
        dsimp only at ht
        have hmem := List.take_subset _ _ ht
        exact (filter_dataset_mixing_prop _ t hmem).2
    | raised msg =>
      rw [hs] at ht h12
      dsimp only at ht h12
      by_cases hsvc : (containsSub (String.mk (pyLowerL msg.data)) "does not exist" &&
          containsSub (String.mk (pyLowerL msg.data)) "schema_search_service") = true
      · rw [if_pos hsvc] at ht h12
        dsimp only at ht h12
        simp only [List.mem_cons, not_or] at h12
        exact fallback_no_superstore sess question _ hfetch h12.2 t ht
      · rw [if_neg hsvc] at ht h12
        by_cases htd : containsSub (String.mk (pyLowerL msg.data)) "table_descriptions" = true
        · rw [if_pos htd] at ht
          simp at ht
        · rw [if_neg htd] at ht h12
          dsimp only at ht h12
          simp only [List.mem_cons, not_or] at h12
          exact fallback_no_superstore sess question _ hfetch h12.2 t ht

/-- The `sessKeywordFK` fixture honors the metadata-store query
contract. -/
theorem sessKeywordFK_respects : FetchRespectsNames sessKeywordFK := by
  constructor
  · intro names rows h r hr
    simp only [sessKeywordFK] at h
    injection h with h
    subst h
    by_cases hc : names.contains "ORDERS"
    · rw [if_pos hc] at hr
      have hmem : "ORDERS" ∈ names := by
        simpa using hc
      rcases List.mem_cons.mp hr with hr | hr
      · subst hr
        exact hmem
      · rcases List.mem_cons.mp hr with hr | hr
        · subst hr
          exact hmem
        · simp at hr
    · rw [if_neg hc] at hr
      simp at hr
  · intro names rows h
    simp only [sessKeywordFK] at h
    cases h

/-- Witness for C2 (amended) on the keyword-tier fixture: the full
catalog is not entered and no returned table is `SUPERSTORE_SALES`. -/
theorem dataset_isolation_C2_amended_witness :
    (⟨"ORDER_ITEMS", [⟨"PRICE", "d", "VARCHAR", ""⟩, ⟨"FREIGHT_VALUE", "d", "VARCHAR", ""⟩],
        mkRat 1 2⟩ : TableCtx).table_name ≠ "SUPERSTORE_SALES" :=
  dataset_isolation_C2_amended sessKeywordFK "price of ordered products" 1
    sessKeywordFK_respects (by decide) _ (by decide)

/-- C3 (counterexample): a search error whose message mentions
`TABLE_DESCRIPTIONS` makes `link_schema` return the empty result directly
from the semantic tier — the keyword fallback is never invoked, although
it would have produced rows on this session. -/
theorem fallback_ordering_C3_counterexample :
    sessTableDescErr.search = .raised "TABLE_DESCRIPTIONS is missing" ∧
    link_schema_t sessTableDescErr "any question words" 5 = ([], [Tier.semantic]) ∧
    Tier.keyword ∉ (link_schema_t sessTableDescErr "any question words" 5).2 ∧
    sessTableDescErr.keywordQuery
        ((extractKeywords "any question words").take 10) (5 * 15) =
      .ok [⟨"CUSTOMERS", "CITY", some "d", some "T", some "", 1⟩] :=
  ⟨rfl, by decide, by decide, rfl⟩

/-- C3 (amended): on a non-blank question, when the semantic search
raises, the keyword fallback tier is invoked (and any full-catalog
attempt comes only after it) — except when the error message mentions
`table_descriptions` without being the missing-service error, in which
case `link_schema` returns the empty result immediately after the
semantic tier, never attempting the keyword tier. -/
theorem fallback_ordering_C3_amended (sess : LinkerSession) (question : String)
    (limit0 : Int) (msg : String)
    (hq : isBlank question = false) (hs : sess.search = .raised msg) :
    (((containsSub (String.mk (pyLowerL msg.data)) "does not exist" &&
        containsSub (String.mk (pyLowerL msg.data)) "schema_search_service") = true ∨
      containsSub (String.mk (pyLowerL msg.data)) "table_descriptions" = false) →
      ∃ r, (link_schema_t sess question limit0).2 = Tier.semantic :: Tier.keyword :: r) ∧
    (((containsSub (String.mk (pyLowerL msg.data)) "does not exist" &&
        containsSub (String.mk (pyLowerL msg.data)) "schema_search_service") = false ∧
      containsSub (String.mk (pyLowerL msg.data)) "table_descriptions" = true) →
      link_schema_t sess question limit0 = ([], [Tier.semantic])) := by
  have htrace : ∀ limit : Nat, ∃ r,
      (fallback_keyword_search_t sess question limit).2 = Tier.keyword :: r := by
    intro limit
    unfold fallback_keyword_search_t
    dsimp only
    cases hkq : sess.keywordQuery ((extractKeywords question).take 10) (limit * 15) with
    | error e => exact ⟨[Tier.fullCatalog], rfl⟩
    | ok rows =>
      dsimp only
      by_cases hre : rows = []
      · rw [if_pos hre]
        exact ⟨[Tier.fullCatalog], rfl⟩
      · rw [if_neg hre]
        exact ⟨[], rfl⟩
  constructor
  · intro hcase
    unfold link_schema_t
    rw [hq, if_neg Bool.false_ne_true]
    dsimp only
    rw [hs]
    dsimp only
    rcases hcase with hsvc | htd
    · rw [if_pos hsvc]
      obtain ⟨r, hr⟩ := htrace (if limit0 < 1 then 5 else limit0.toNat)
      exact ⟨r, by rw [hr]⟩
    · by_cases hsvc : (containsSub (String.mk (pyLowerL msg.data)) "does not exist" &&
          containsSub (String.mk (pyLowerL msg.data)) "schema_search_service") = true
      · rw [if_pos hsvc]
        obtain ⟨r, hr⟩ := htrace (if limit0 < 1 then 5 else limit0.toNat)
        exact ⟨r, by rw [hr]⟩
      · rw [if_neg hsvc, if_neg (by rw [htd]; exact Bool.false_ne_true)]
        obtain ⟨r, hr⟩ := htrace (if limit0 < 1 then 5 else limit0.toNat)
        exact ⟨r, by rw [hr]⟩
  · rintro ⟨hsvc, htd⟩
    unfold link_schema_t
    rw [hq, if_neg Bool.false_ne_true]
    dsimp only
    rw [hs]
    dsimp only
    rw [if_neg (by rw [hsvc]; exact Bool.false_ne_true), if_pos htd]

/-- Witness for C3 (amended): both branches at concrete sessions — the
generic-failure session goes through the keyword tier; the
`TABLE_DESCRIPTIONS` error session stops at the semantic tier. -/
theorem fallback_ordering_C3_amended_witness :
    (∃ r, (link_schema_t sessFullCatalog "any question words" 5).2 =
      Tier.semantic :: Tier.keyword :: r) ∧
    link_schema_t sessTableDescErr "any question words" 5 = ([], [Tier.semantic]) :=
  ⟨(fallback_ordering_C3_amended sessFullCatalog "any question words" 5 "boom failure"
      (by decide) rfl).1 (Or.inr (by decide)),
   (fallback_ordering_C3_amended sessTableDescErr "any question words" 5
      "TABLE_DESCRIPTIONS is missing" (by decide) rfl).2 ⟨by decide, by decide⟩⟩

/-- C10: the `limit` bound is not respected by the keyword tier: on
`sessKeywordFK` with `limit = 1`, the keyword tier truncates to one table
and FK supplementation then appends the missing `ORDERS` partner, so
`link_schema` returns two tables — strictly more than `limit`. -/
theorem limit_overflow_C10 :
    (link_schema sessKeywordFK "price of ordered products" 1).length = 2 ∧
    1 < (link_schema sessKeywordFK "price of ordered products" 1).length := by
  constructor
  · decide
  · decide

/-- Properties of every directly matched keyword-tier table: it survived
the dataset-mixing filter, its columns are non-empty, and its relevance
is the keyword-tier constant 0.5. -/
theorem keywordDirect_prop (rows : List KeywordRow) (limit : Nat) :
    ∀ t ∈ keywordDirect rows limit,
      t.table_name ≠ "SUPERSTORE_SALES" ∧ t.columns ≠ [] ∧
      t.relevance_score = mkRat 1 2 := by
  intro t ht
  unfold keywordDirect at ht
  obtain ⟨h1, h2⟩ := filter_dataset_mixing_prop _ t ht
  have h3 := List.take_subset _ _ h1
  obtain ⟨a, ha, rfl⟩ := List.mem_map.mp h3
  rw [mem_sortDescBy] at ha
  obtain ⟨h4, h5⟩ := kwFold_prop rows a ha
  exact ⟨h2, h4, h5⟩

theorem get_all_tables_columns (sess : LinkerSession) (limit : Nat) :
    ∀ t ∈ get_all_tables sess limit, t.columns ≠ [] := by
  intro t ht
  unfold get_all_tables at ht
  cases hra : sess.rawAll with
  | ok rows =>
    rw [hra] at ht
    have := List.take_subset _ _ ht
    exact (groupRaw_prop (mkRat 1 10) rows (fun _ => True) (fun _ _ => trivial) t this).2.1
  | error e =>
    rw [hra] at ht
    simp at ht

theorem fallback_columns (sess : LinkerSession) (question : String) (limit : Nat) :
    ∀ t ∈ (fallback_keyword_search_t sess question limit).1, t.columns ≠ [] := by
  intro t ht
  unfold fallback_keyword_search_t at ht
  dsimp only at ht
  cases hkq : sess.keywordQuery ((extractKeywords question).take 10) (limit * 15) with
  | error e =>
    rw [hkq] at ht
    exact get_all_tables_columns sess limit t ht
  | ok rows =>
    rw [hkq] at ht
    dsimp only at ht
    by_cases hre : rows = []
    · rw [if_pos hre] at ht
      exact get_all_tables_columns sess limit t ht
    · rw [if_neg hre] at ht
      dsimp only at ht
      rcases mem_supplement _ _ _ t ht with hd | hf
      · exact (keywordDirect_prop rows limit t hd).2.1
      · exact (fetch_tables_prop_noContract sess _ t hf).1

/-- C9: every `TableCtx` in the sequence returned by `link_schema` has a
non-empty `columns` list, for every session behaviour, question, and
limit — each grouping loop only creates a table entry when appending a
column to it. -/
theorem columns_nonempty_C9 (sess : LinkerSession) (question : String) (limit0 : Int) :
    ∀ t ∈ link_schema sess question limit0, t.columns ≠ [] := by
  intro t ht
  unfold link_schema link_schema_t at ht
  by_cases hq : isBlank question = true
  · rw [if_pos hq] at ht
    simp at ht
  · rw [if_neg hq] at ht
    dsimp only at ht
    cases hs : sess.search with
    | results rows =>
      rw [hs] at ht
      dsimp only at ht
      by_cases hre : rows = []
      · rw [if_pos hre] at ht
        simp at ht
      · rw [if_neg hre] at ht
        dsimp only at ht
        have h1 := List.take_subset _ _ ht
        have h2 := (filter_dataset_mixing_prop _ t h1).1
        rw [mem_sortDescBy] at h2
        obtain ⟨a, ha, rfl⟩ := List.mem_map.mp h2
        have := semFold_prop rows a ha
        simpa [semToTable] using this
    | raised msg =>
      rw [hs] at ht
      dsimp only at ht
      by_cases hsvc : (containsSub (String.mk (pyLowerL msg.data)) "does not exist" &&
          containsSub (String.mk (pyLowerL msg.data)) "schema_search_service") = true
      · rw [if_pos hsvc] at ht
        exact fallback_columns sess question _ t ht
      · rw [if_neg hsvc] at ht
        by_cases htd : containsSub (String.mk (pyLowerL msg.data)) "table_descriptions" = true
        · rw [if_pos htd] at ht
          simp at ht
        · rw [if_neg htd] at ht
          exact fallback_columns sess question _ t ht

/-- Witness for C9: a table produced through the keyword tier of a
concrete session has non-empty columns. -/
theorem columns_nonempty_C9_witness :
    (⟨"ORDER_ITEMS", [⟨"PRICE", "d", "VARCHAR", ""⟩, ⟨"FREIGHT_VALUE", "d", "VARCHAR", ""⟩],
        mkRat 1 2⟩ : TableCtx).columns ≠ [] :=
  columns_nonempty_C9 sessKeywordFK "price of ordered products" 1 _ (by decide)

/-- C5: if the keyword tier's direct result contains a table whose
declared FK partner is absent from that result, and the partner's
metadata can be fetched (an entry for it comes back from
`_fetch_tables_by_name`), then the final SchemaContext contains that
entry, its relevance is 0.4 (metadata store) or 0.3 (raw catalog), and
that relevance is strictly lower than the relevance of every directly
matched table (all 0.5). -/
theorem fk_supplementation_C5 (sess : LinkerSession) (question : String)
    (limit0 : Int) (msg : String) (rows : List KeywordRow) (t e : TableCtx) (p : String)
    (hq : isBlank question = false)
    (hs : sess.search = .raised msg)
    (hcls : (containsSub (String.mk (pyLowerL msg.data)) "does not exist" &&
        containsSub (String.mk (pyLowerL msg.data)) "schema_search_service") = true ∨
      containsSub (String.mk (pyLowerL msg.data)) "table_descriptions" = false)
    (hkq : sess.keywordQuery ((extractKeywords question).take 10)
        ((if limit0 < 1 then 5 else limit0.toNat) * 15) = .ok rows)
    (hre : rows ≠ [])
    (ht : t ∈ keywordDirect rows (if limit0 < 1 then 5 else limit0.toNat))
    (hp : p ∈ FK_PARTNERS t.table_name)
    (habs : p ∉ (keywordDirect rows (if limit0 < 1 then 5 else limit0.toNat)).map (·.table_name))
    (he : e ∈ fetch_tables_by_name sess
        (neededPartners (keywordDirect rows (if limit0 < 1 then 5 else limit0.toNat))))
    (_hep : e.table_name = p) :
    e ∈ link_schema sess question limit0 ∧
    (e.relevance_score = mkRat 2 5 ∨ e.relevance_score = mkRat 3 10) ∧
    ∀ d ∈ keywordDirect rows (if limit0 < 1 then 5 else limit0.toNat),
      e.relevance_score < d.relevance_score := by
  have hscore := fetch_tables_prop_noContract sess _ e he
  have hneed : p ∈ neededPartners (keywordDirect rows (if limit0 < 1 then 5 else limit0.toNat)) := by
    unfold neededPartners
    rw [mem_dedupFirst]
    refine List.mem_filter.mpr ⟨?_, ?_⟩
    · exact List.mem_flatten.mpr ⟨FK_PARTNERS t.table_name,
        List.mem_map.mpr ⟨t, ht, rfl⟩, hp⟩
    · simpa using habs
  refine ⟨?_, hscore.2, ?_⟩
  · unfold link_schema link_schema_t
    rw [hq, if_neg Bool.false_ne_true]
    dsimp only
    rw [hs]
    dsimp only
    have hfb : e ∈ (fallback_keyword_search_t sess question
        (if limit0 < 1 then 5 else limit0.toNat)).1 := by
      unfold fallback_keyword_search_t
      dsimp only
      rw [hkq]
      dsimp only
      rw [if_neg hre]
      dsimp only
      unfold supplement_related_tables
      dsimp only
      rw [if_neg (List.ne_nil_of_mem hneed)]
      exact List.mem_append_right _ he
    rcases hcls with hsvc | htd
    · rw [if_pos hsvc]
      exact hfb
    · by_cases hsvc : (containsSub (String.mk (pyLowerL msg.data)) "does not exist" &&
          containsSub (String.mk (pyLowerL msg.data)) "schema_search_service") = true
      · rw [if_pos hsvc]
        exact hfb
      · rw [if_neg hsvc, if_neg (by rw [htd]; exact Bool.false_ne_true)]
        exact hfb
  · intro d hd
    have hdp := (keywordDirect_prop _ _ d hd).2.2
    rw [hdp]
    rcases hscore.2 with h | h <;> rw [h] <;> decide

/-- Witness for C5 on the keyword-tier fixture: `ORDER_ITEMS` is matched
directly, its partner `ORDERS` is absent and fetched from the metadata
store at score 0.4 < 0.5. -/
theorem fk_supplementation_C5_witness :
    (⟨"ORDERS", [⟨"ORDER_ID", "md", "VARCHAR", "s"⟩, ⟨"ORDER_STATUS", "md", "VARCHAR", "s"⟩],
        mkRat 2 5⟩ : TableCtx) ∈ link_schema sessKeywordFK "price of ordered products" 1 ∧
    ((⟨"ORDERS", [⟨"ORDER_ID", "md", "VARCHAR", "s"⟩, ⟨"ORDER_STATUS", "md", "VARCHAR", "s"⟩],
        mkRat 2 5⟩ : TableCtx).relevance_score = mkRat 2 5 ∨
      (⟨"ORDERS", [⟨"ORDER_ID", "md", "VARCHAR", "s"⟩, ⟨"ORDER_STATUS", "md", "VARCHAR", "s"⟩],
        mkRat 2 5⟩ : TableCtx).relevance_score = mkRat 3 10) ∧
    ∀ d ∈ keywordDirect
        [⟨"ORDER_ITEMS", "PRICE", some "d", some "VARCHAR", some "", 2⟩,
         ⟨"ORDER_ITEMS", "FREIGHT_VALUE", some "d", some "VARCHAR", some "", 2⟩,
         ⟨"PRODUCTS", "PRODUCT_ID", some "d", some "VARCHAR", some "", 1⟩]
        (if (1 : Int) < 1 then 5 else (1 : Int).toNat),
      (⟨"ORDERS", [⟨"ORDER_ID", "md", "VARCHAR", "s"⟩, ⟨"ORDER_STATUS", "md", "VARCHAR", "s"⟩],
        mkRat 2 5⟩ : TableCtx).relevance_score < d.relevance_score :=
  fk_supplementation_C5 sessKeywordFK "price of ordered products" 1 "some other failure"
    [⟨"ORDER_ITEMS", "PRICE", some "d", some "VARCHAR", some "", 2⟩,
     ⟨"ORDER_ITEMS", "FREIGHT_VALUE", some "d", some "VARCHAR", some "", 2⟩,
     ⟨"PRODUCTS", "PRODUCT_ID", some "d", some "VARCHAR", some "", 1⟩]
    ⟨"ORDER_ITEMS", [⟨"PRICE", "d", "VARCHAR", ""⟩, ⟨"FREIGHT_VALUE", "d", "VARCHAR", ""⟩],
      mkRat 1 2⟩
    ⟨"ORDERS", [⟨"ORDER_ID", "md", "VARCHAR", "s"⟩, ⟨"ORDER_STATUS", "md", "VARCHAR", "s"⟩],
      mkRat 2 5⟩
    "ORDERS"
    (by decide) rfl (Or.inr (by decide)) rfl (by decide) (by decide) (by decide)
    (by decide) (by decide) rfl

/-! ## Lemmas about `_clean_sql` (claim C6)

The amended C6 is a conjunction of shape properties of `clean_sql`'s
output; each is established at the pipeline stage that creates it and
preserved through the later stages. -/

/-- No tab character occurs. -/
def noTabL (l : List Char) : Bool :=
  l.all (fun c => !(c = '\t'))

/-- No two adjacent spaces occur. -/
def noDoubleSpaceL : List Char → Bool
  | [] => true
  | [_] => true
  | a :: b :: r => !(a = ' ' && b = ' ') && noDoubleSpaceL (b :: r)

/-- No newline is followed, through whitespace only, by another newline:
no blank (or whitespace-only) line remains. -/
def noBlankLinesL : List Char → Bool
  | [] => true
  | c :: r => (if c = '\n' then !(nlAhead r) else true) && noBlankLinesL r

/-- A residual code-fence marker (three adjacent backticks) occurs. -/
def hasTriple (l : List Char) : Bool :=
  containsSubL ['`', '`', '`'] l

/-- The list does not begin with a backtick (vacuously true when empty);
auxiliary strengthening for the fence-removal invariant. -/
def headNotTick : List Char → Bool
  | [] => true
  | c :: _ => !(c = '`')

theorem dropWhile_head_false (p : Char → Bool) (l : List Char) (c : Char) (t : List Char)
    (h : l.dropWhile p = c :: t) : p c = false := by
  induction l with
  | nil => simp at h
  | cons a r ih =>
    rw [List.dropWhile_cons] at h
    split at h
    · exact ih h
    · cases h
      simp_all

theorem dropWhile_idem (p : Char → Bool) (l : List Char) :
    (l.dropWhile p).dropWhile p = l.dropWhile p := by
  cases hd : l.dropWhile p with
  | nil => rfl
  | cons c t =>
    rw [List.dropWhile_cons, dropWhile_head_false p l c t hd]
    simp

/-- Right trim: what `pyStripL` does on the reversed side. -/
theorem trimRight_prefix (p : Char → Bool) (l : List Char) :
    (l.reverse.dropWhile p).reverse <+: l := by
  have h := List.dropWhile_suffix (l := l.reverse) p
  have := List.reverse_prefix.mpr h
  simpa using this

theorem pyStripL_eq_trim (l : List Char) :
    pyStripL l = ((l.dropWhile isPySpace).reverse.dropWhile isPySpace).reverse := rfl

theorem pyStripL_prefix_dropWhile (l : List Char) :
    pyStripL l <+: l.dropWhile isPySpace := trimRight_prefix _ _

theorem pyStripL_idem (l : List Char) : pyStripL (pyStripL l) = pyStripL l := by
  have hpre := pyStripL_prefix_dropWhile l
  have hdw : (pyStripL l).dropWhile isPySpace = pyStripL l := by
    cases hz : pyStripL l with
    | nil => rfl
    | cons c t =>
      have hc : isPySpace c = false := by
        obtain ⟨u, hu⟩ := hpre
        rw [hz] at hu
        have : l.dropWhile isPySpace = c :: (t ++ u) := by
          rw [← hu]
          simp
        exact dropWhile_head_false isPySpace l c _ this
      rw [List.dropWhile_cons, hc]
      simp
  have hrev : (pyStripL l).reverse.dropWhile isPySpace = (pyStripL l).reverse := by
    rw [pyStripL_eq_trim, List.reverse_reverse]
    exact dropWhile_idem _ _
  conv_lhs => rw [pyStripL_eq_trim, hdw, hrev]
  simp

/-! Tail and prefix closure of the shape predicates. -/

theorem noTabL_sublist {l m : List Char} (hs : List.Sublist m l) (h : noTabL l = true) :
    noTabL m = true := by
  unfold noTabL at h ⊢
  rw [List.all_eq_true] at h ⊢
  intro c hc
  exact h c (hs.mem hc)

theorem noDoubleSpaceL_tail {a : Char} {r : List Char}
    (h : noDoubleSpaceL (a :: r) = true) : noDoubleSpaceL r = true := by
  cases r with
  | nil => rfl
  | cons b t =>
    rw [noDoubleSpaceL, Bool.and_eq_true] at h
    exact h.2

theorem noDoubleSpaceL_take (l : List Char) (k : Nat)
    (h : noDoubleSpaceL l = true) : noDoubleSpaceL (l.take k) = true := by
  induction l generalizing k with
  | nil => simp [noDoubleSpaceL]
  | cons a r ih =>
    cases k with
    | zero => rfl
    | succ k =>
      rw [List.take_succ_cons]
      cases r with
      | nil => simp [noDoubleSpaceL]
      | cons b t =>
        cases k with
        | zero => rfl
        | succ k =>
          rw [noDoubleSpaceL, Bool.and_eq_true] at h
          obtain ⟨h1, h2⟩ := h
          have := ih (k + 1) h2
          rw [List.take_succ_cons] at this
          rw [List.take_succ_cons, noDoubleSpaceL, Bool.and_eq_true]
          exact ⟨h1, this⟩

theorem nlAhead_take (l : List Char) (k : Nat)
    (h : nlAhead (l.take k) = true) : nlAhead l = true := by
  induction l generalizing k with
  | nil => simp [nlAhead] at h
  | cons a r ih =>
    cases k with
    | zero => simp [nlAhead] at h
    | succ k =>
      rw [List.take_succ_cons] at h
      rw [nlAhead] at h ⊢
      split at h
      · simp_all
      · split at h
        · rename_i h1 h2
          rw [if_neg h1, if_pos h2]
          exact ih k h
        · simp_all

theorem noBlankLinesL_tail {a : Char} {r : List Char}
    (h : noBlankLinesL (a :: r) = true) : noBlankLinesL r = true := by
  rw [noBlankLinesL, Bool.and_eq_true] at h
  exact h.2

theorem noBlankLinesL_take (l : List Char) (k : Nat)
    (h : noBlankLinesL l = true) : noBlankLinesL (l.take k) = true := by
  induction l generalizing k with
  | nil => simp [noBlankLinesL]
  | cons a r ih =>
    cases k with
    | zero => rfl
    | succ k =>
      rw [List.take_succ_cons, noBlankLinesL, Bool.and_eq_true]
      rw [noBlankLinesL, Bool.and_eq_true] at h
      obtain ⟨h1, h2⟩ := h
      refine ⟨?_, ih k h2⟩
      split
      · rename_i ha
        rw [if_pos ha] at h1
        simp only [Bool.not_eq_true'] at h1 ⊢
        by_cases hx : nlAhead (r.take k) = true
        · rw [nlAhead_take r k hx] at h1
          cases h1
        · simpa using hx
      · rfl

theorem listStarts_of_take (pat l : List Char) (k : Nat)
    (h : listStarts pat (l.take k) = true) : listStarts pat l = true := by
  induction pat generalizing l k with
  | nil => rfl
  | cons p ps ih =>
    cases l with
    | nil => cases k <;> simp_all [listStarts]
    | cons c r =>
      cases k with
      | zero => simp [listStarts] at h
      | succ k =>
        rw [List.take_succ_cons] at h
        rw [listStarts, Bool.and_eq_true] at h ⊢
        obtain ⟨h1, h2⟩ := h
        exact ⟨h1, ih r k h2⟩

theorem containsSubL_take (pat l : List Char) (k : Nat)
    (h : containsSubL pat (l.take k) = true) : containsSubL pat l = true := by
  induction l generalizing k with
  | nil => cases k <;> simpa using h
  | cons c r ih =>
    cases k with
    | zero =>
      simp only [List.take_zero] at h
      rw [containsSubL] at *
      cases pat <;> simp_all [containsSubL, listStarts]
    | succ k =>
      rw [List.take_succ_cons, containsSubL, Bool.or_eq_true] at h
      rw [containsSubL, Bool.or_eq_true]
      rcases h with h | h
      · exact Or.inl (listStarts_of_take pat (c :: r) (k + 1) (by simpa using h))
      · exact Or.inr (ih k h)

theorem containsSubL_tail (pat : List Char) (c : Char) (r : List Char)
    (h : containsSubL pat r = true) : containsSubL pat (c :: r) = true := by
  rw [containsSubL, Bool.or_eq_true]
  exact Or.inr h

theorem containsSubL_dropWhile (pat : List Char) (p : Char → Bool) (l : List Char)
    (h : containsSubL pat (l.dropWhile p) = true) : containsSubL pat l = true := by
  induction l with
  | nil => simpa using h
  | cons c r ih =>
    rw [List.dropWhile_cons] at h
    split at h
    · exact containsSubL_tail pat c r (ih h)
    · exact h

theorem noDoubleSpaceL_dropWhile (p : Char → Bool) (l : List Char)
    (h : noDoubleSpaceL l = true) : noDoubleSpaceL (l.dropWhile p) = true := by
  induction l with
  | nil => simpa using h
  | cons c r ih =>
    rw [List.dropWhile_cons]
    split
    · exact ih (noDoubleSpaceL_tail h)
    · exact h

theorem noBlankLinesL_dropWhile (p : Char → Bool) (l : List Char)
    (h : noBlankLinesL l = true) : noBlankLinesL (l.dropWhile p) = true := by
  induction l with
  | nil => simpa using h
  | cons c r ih =>
    rw [List.dropWhile_cons]
    split
    · exact ih (noBlankLinesL_tail h)
    · exact h

/-- Prefix closure, via `prefix = take`. -/
theorem IsPrefix_eq_take {l m : List Char} (h : m <+: l) : m = l.take m.length := by
  obtain ⟨t, rfl⟩ := h
  simp

theorem pyStripL_preserves (l : List Char)
    (h1 : noTabL l = true) (h2 : noDoubleSpaceL l = true)
    (h3 : noBlankLinesL l = true) (h4 : hasTriple l = false) :
    noTabL (pyStripL l) = true ∧ noDoubleSpaceL (pyStripL l) = true ∧
    noBlankLinesL (pyStripL l) = true ∧ hasTriple (pyStripL l) = false := by
  have hd := pyStripL_prefix_dropWhile l
  have htake := IsPrefix_eq_take hd
  refine ⟨?_, ?_, ?_, ?_⟩
  · exact noTabL_sublist (hd.sublist.trans (List.dropWhile_sublist _)) h1
  · rw [htake]
    exact noDoubleSpaceL_take _ _ (noDoubleSpaceL_dropWhile _ _ h2)
  · rw [htake]
    exact noBlankLinesL_take _ _ (noBlankLinesL_dropWhile _ _ h3)
  · by_cases hx : hasTriple (pyStripL l) = true
    · rw [htake] at hx
      have := containsSubL_dropWhile _ isPySpace l (containsSubL_take _ _ _ hx)
      unfold hasTriple at h4
      rw [this] at h4
      cases h4
    · simpa using hx

/-! ### `stripFences` equations and invariants -/

theorem sf_fence6 (a b c : Char) (rest : List Char) :
    stripFences ('`' :: '`' :: '`' :: a :: b :: c :: rest) =
      if a.toLower = 's' && b.toLower = 'q' && c.toLower = 'l' then stripFences rest
      else stripFences (a :: b :: c :: rest) := rfl

theorem sf_fence3_nil : stripFences ['`', '`', '`'] = [] := rfl

theorem sf_fence3_one (x : Char) : stripFences ['`', '`', '`', x] = stripFences [x] := rfl

theorem sf_fence3_two (x y : Char) :
    stripFences ['`', '`', '`', x, y] = stripFences [x, y] := rfl

theorem sf_cons_ne (c : Char) (rest : List Char) (hc : ¬(c = '`')) :
    stripFences (c :: rest) = c :: stripFences rest := by
  rw [stripFences.eq_def]
  split <;> simp_all

theorem sf_tick_one (rest : List Char) (h : ∀ t, rest ≠ '`' :: t) :
    stripFences ('`' :: rest) = '`' :: stripFences rest := by
  rw [stripFences.eq_def]
  split <;> simp_all <;> tauto

theorem sf_tick_two (rest : List Char) (h : ∀ t, rest ≠ '`' :: t) :
    stripFences ('`' :: '`' :: rest) = '`' :: stripFences ('`' :: rest) := by
  rw [stripFences.eq_def]
  split <;> simp_all <;> tauto

theorem sf_one (x : Char) : stripFences [x] = [x] := by
  rw [stripFences.eq_def]
  split <;> simp_all [stripFences]

theorem sf_two (x y : Char) : stripFences [x, y] = [x, y] := by
  by_cases hx : x = '`'
  · subst hx
    by_cases hy : y = '`'
    · subst hy
      decide
    · rw [sf_tick_one _ (by intro t h; cases h; exact hy rfl), sf_one]
  · rw [sf_cons_ne x _ hx, sf_one]

theorem stripFences_append_semi (l : List Char) :
    stripFences (l ++ [';']) = stripFences l ++ [';'] := by
  have H : ∀ (n : Nat) (l : List Char), l.length ≤ n →
      stripFences (l ++ [';']) = stripFences l ++ [';'] := by
    intro n
    induction n with
    | zero =>
      intro l hl
      have : l = [] := List.eq_nil_of_length_eq_zero (Nat.le_zero.mp hl)
      subst this
      decide
    | succ n ih =>
      intro l hl
      match l with
      | [] => decide
      | c :: r =>
        by_cases hc : c = '`'
        · subst hc
          match r with
          | [] => decide
          | d :: r' =>
            by_cases hd : d = '`'
            · subst hd
              match r' with
              | [] => decide
              | e :: r'' =>
                by_cases he : e = '`'
                · subst he
                  match r'' with
                  | [] => decide
                  | [x] =>
                    show stripFences ('`' :: '`' :: '`' :: [x, ';']) = _
                    rw [sf_fence3_two, sf_fence3_one, sf_two, sf_one]
                    rfl
                  | [x, y] =>
                    show stripFences ('`' :: '`' :: '`' :: x :: y :: ';' :: []) = _
                    rw [sf_fence6]
                    have hsemi : (x.toLower = 's' && y.toLower = 'q' &&
                        Char.toLower ';' = 'l') = false := by
                      have h1 : (Char.toLower ';' = 'l') = False := by
                        simp only [eq_iff_iff, iff_false]
                        decide
                      simp [h1]
                    rw [hsemi]
                    simp only [Bool.false_eq_true, if_false]
                    rw [sf_fence3_two, sf_two]
                    by_cases hx : x = '`'
                    · subst hx
                      by_cases hy : y = '`'
                      · subst hy
                        rw [sf_tick_two _ (by intro t h; cases h),
                            sf_tick_one _ (by intro t h; cases h)]
                        rfl
                      · rw [sf_tick_one _ (by intro t h; cases h; exact hy rfl),
                            sf_cons_ne y _ hy, sf_one]
                        rfl
                    · rw [sf_cons_ne x _ hx, sf_two]
                      rfl
                  | x :: y :: z :: r3 =>
                    have h6 : ('`' :: '`' :: '`' :: x :: y :: z :: r3) ++ [';'] =
                        '`' :: '`' :: '`' :: x :: y :: z :: (r3 ++ [';']) := by simp
                    rw [h6, sf_fence6, sf_fence6]
                    by_cases htag : (x.toLower = 's' && y.toLower = 'q' && z.toLower = 'l') = true
                    · rw [htag]
                      simp only [if_true]
                      exact ih r3 (by simp at hl; omega)
                    · rw [Bool.not_eq_true] at htag
                      rw [htag]
                      simp only [Bool.false_eq_true, if_false]
                      exact ih (x :: y :: z :: r3) (by simp at hl ⊢; omega)
                · have hne : ∀ t, (e :: (r'' ++ [';'])) ≠ '`' :: t := by
                    intro t h
                    cases h
                    exact he rfl
                  have hne2 : ∀ t, (e :: r'') ≠ '`' :: t := by
                    intro t h
                    cases h
                    exact he rfl
                  have hr : ('`' :: '`' :: e :: r'') ++ [';'] =
                      '`' :: '`' :: (e :: (r'' ++ [';'])) := by simp
                  rw [hr, sf_tick_two _ hne, sf_tick_one _ hne,
                      sf_tick_two _ hne2, sf_tick_one _ hne2]
                  have hih : stripFences ((e :: r'') ++ [';']) =
                      stripFences (e :: r'') ++ [';'] :=
                    ih (e :: r'') (by simp at hl ⊢; omega)
                  simp only [List.cons_append] at hih
                  rw [hih]
                  simp
            · have hne : ∀ t, (d :: (r' ++ [';'])) ≠ '`' :: t := by
                intro t h
                cases h
                exact hd rfl
              have hne2 : ∀ t, (d :: r') ≠ '`' :: t := by
                intro t h
                cases h
                exact hd rfl
              have hr : ('`' :: d :: r') ++ [';'] = '`' :: (d :: (r' ++ [';'])) := by simp
              rw [hr, sf_tick_one _ hne, sf_tick_one _ hne2]
              have hih : stripFences ((d :: r') ++ [';']) = stripFences (d :: r') ++ [';'] :=
                ih (d :: r') (by simp at hl ⊢; omega)
              simp only [List.cons_append] at hih
              rw [hih]
              simp
        · rw [List.cons_append, sf_cons_ne c _ hc, sf_cons_ne c _ hc]
          rw [ih r (by simp at hl; omega)]
          simp
  exact H l.length l (Nat.le_refl _)

theorem listStarts_one_tick_false (m : List Char) (hm : headNotTick m = true) :
    listStarts ['`'] m = false := by
  cases m with
  | nil => rfl
  | cons c r =>
    simp only [headNotTick, Bool.not_eq_true', decide_eq_false_iff_not] at hm
    have h2 : ¬('`' = c) := fun h => hm h.symm
    simp [listStarts, h2]

theorem listStarts_two_ticks_false (m : List Char) (hm : headNotTick m = true) :
    listStarts ['`', '`'] m = false := by
  cases m with
  | nil => rfl
  | cons c r =>
    simp only [headNotTick, Bool.not_eq_true', decide_eq_false_iff_not] at hm
    have h2 : ¬('`' = c) := fun h => hm h.symm
    simp [listStarts, h2]

theorem hasTriple_cons_ne (c : Char) (m : List Char) (hc : ¬(c = '`'))
    (hm : hasTriple m = false) : hasTriple (c :: m) = false := by
  unfold hasTriple at hm ⊢
  rw [containsSubL, listStarts]
  have h1 : ('`' = c) = False := by
    simp only [eq_iff_iff, iff_false]
    exact fun h => hc h.symm
  simp [h1, hm]

theorem hasTriple_tick_cons (m : List Char) (hm1 : headNotTick m = true)
    (hm2 : hasTriple m = false) : hasTriple ('`' :: m) = false := by
  unfold hasTriple at hm2 ⊢
  rw [containsSubL, listStarts, listStarts_two_ticks_false m hm1, hm2]
  simp

theorem hasTriple_two_ticks (m : List Char) (hm1 : headNotTick m = true)
    (hm2 : hasTriple m = false) : hasTriple ('`' :: '`' :: m) = false := by
  have inner := hasTriple_tick_cons m hm1 hm2
  unfold hasTriple at inner ⊢
  rw [containsSubL, listStarts, listStarts, listStarts_one_tick_false m hm1, inner]
  simp

theorem stripFences_no_triple (l : List Char) :
    hasTriple (stripFences l) = false ∧
    (headNotTick l = true → headNotTick (stripFences l) = true) := by
  have H : ∀ (n : Nat) (l : List Char), l.length ≤ n →
      hasTriple (stripFences l) = false ∧
      (headNotTick l = true → headNotTick (stripFences l) = true) := by
    intro n
    induction n with
    | zero =>
      intro l hl
      have : l = [] := List.eq_nil_of_length_eq_zero (Nat.le_zero.mp hl)
      subst this
      exact ⟨by decide, fun _ => by decide⟩
    | succ n ih =>
      intro l hl
      match l with
      | [] => exact ⟨by decide, fun _ => by decide⟩
      | c :: r =>
        by_cases hc : c = '`'
        · subst hc
          match r with
          | [] => exact ⟨by decide, fun h => by simp [headNotTick] at h⟩
          | d :: r' =>
            by_cases hd : d = '`'
            · subst hd
              match r' with
              | [] => exact ⟨by decide, fun h => by simp [headNotTick] at h⟩
              | e :: r'' =>
                by_cases he : e = '`'
                · subst he
                  refine ⟨?_, fun h => by simp [headNotTick] at h⟩
                  match r'' with
                  | [] =>
                    rw [sf_fence3_nil]
                    decide
                  | [x] =>
                    rw [sf_fence3_one]
                    exact (ih [x] (by simp at hl ⊢; omega)).1
                  | [x, y] =>
                    rw [sf_fence3_two]
                    exact (ih [x, y] (by simp at hl ⊢; omega)).1
                  | x :: y :: z :: r3 =>
                    rw [sf_fence6]
                    split
                    · exact (ih r3 (by simp at hl; omega)).1
                    · exact (ih (x :: y :: z :: r3) (by simp at hl ⊢; omega)).1
                · have hne2 : ∀ t, (e :: r'') ≠ '`' :: t := by
                    intro t h
                    cases h
                    exact he rfl
                  obtain ⟨ht, hh⟩ := ih (e :: r'') (by simp at hl ⊢; omega)
                  have hsf := hh (by rw [headNotTick]; simp [he])
                  rw [sf_tick_two _ hne2, sf_tick_one _ hne2]
                  exact ⟨hasTriple_two_ticks _ hsf ht,
                    fun h => by simp [headNotTick] at h⟩
            · have hne2 : ∀ t, (d :: r') ≠ '`' :: t := by
                intro t h
                cases h
                exact hd rfl
              obtain ⟨ht, hh⟩ := ih (d :: r') (by simp at hl ⊢; omega)
              have hsf := hh (by rw [headNotTick]; simp [hd])
              rw [sf_tick_one _ hne2]
              exact ⟨hasTriple_tick_cons _ hsf ht,
                fun h => by simp [headNotTick] at h⟩
        · obtain ⟨ht, _⟩ := ih r (by simp at hl; omega)
          rw [sf_cons_ne c _ hc]
          refine ⟨hasTriple_cons_ne c _ hc ht, fun _ => ?_⟩
          rw [headNotTick]
          simp [hc]
  exact H l.length l (Nat.le_refl _)

/-! ### `collapseHT` equations and invariants -/

theorem noTabL_cons (c : Char) (m : List Char) :
    noTabL (c :: m) = ((!(c = '\t')) && noTabL m) := by
  simp [noTabL]

theorem noDoubleSpaceL_cons_ne (c : Char) (m : List Char) (hc : ¬(c = ' ')) :
    noDoubleSpaceL (c :: m) = noDoubleSpaceL m := by
  cases m with
  | nil => simp [noDoubleSpaceL]
  | cons b t => simp [noDoubleSpaceL, hc]

theorem noDoubleSpaceL_cons_head_ne (c b : Char) (t : List Char) (hb : ¬(b = ' ')) :
    noDoubleSpaceL (c :: b :: t) = noDoubleSpaceL (b :: t) := by
  simp [noDoubleSpaceL, hb]

theorem collapseHT_head (d : Char) (r : List Char) (hd : isHT d = false) :
    ∃ t, collapseHT (d :: r) = d :: t := by
  cases r with
  | nil =>
    refine ⟨[], ?_⟩
    rw [collapseHT, if_neg (by simp [hd])]
  | cons e r' =>
    refine ⟨collapseHT (e :: r'), ?_⟩
    rw [collapseHT, if_neg (by simp [hd])]

theorem collapseHT_shape (l : List Char) :
    noTabL (collapseHT l) = true ∧ noDoubleSpaceL (collapseHT l) = true := by
  induction l using collapseHT.induct with
  | case1 => exact ⟨rfl, rfl⟩
  | case2 c hc =>
    rw [collapseHT, if_pos hc]
    exact ⟨by decide, by decide⟩
  | case3 c hc =>
    rw [collapseHT, if_neg hc]
    simp only [isHT, Bool.or_eq_true, decide_eq_true_eq, not_or] at hc
    refine ⟨?_, by simp [noDoubleSpaceL]⟩
    rw [noTabL_cons]
    simp [hc.2, noTabL]
  | case4 c d r hc hd ih =>
    rw [collapseHT, if_pos hc, if_pos hd]
    exact ih
  | case5 c d r hc hd ih =>
    rw [collapseHT, if_pos hc, if_neg hd]
    obtain ⟨t, ht⟩ := collapseHT_head d r (by simpa using hd)
    simp only [isHT, Bool.or_eq_true, decide_eq_true_eq, not_or] at hd
    constructor
    · rw [noTabL_cons]
      simp [ih.1]
    · rw [ht, noDoubleSpaceL_cons_head_ne _ _ _ hd.1, ← ht]
      exact ih.2
  | case6 c d r hc ih =>
    rw [collapseHT, if_neg hc]
    simp only [isHT, Bool.or_eq_true, decide_eq_true_eq, not_or] at hc
    constructor
    · rw [noTabL_cons]
      simp [hc.2, ih.1]
    · rw [noDoubleSpaceL_cons_ne _ _ hc.1]
      exact ih.2

theorem collapseHT_ticks (l : List Char) :
    (listStarts ['`'] (collapseHT l) = true → listStarts ['`'] l = true) ∧
    (listStarts ['`', '`'] (collapseHT l) = true → listStarts ['`', '`'] l = true) ∧
    (hasTriple l = false → hasTriple (collapseHT l) = false) := by
  induction l using collapseHT.induct with
  | case1 => exact ⟨fun h => h, fun h => h, fun _ => rfl⟩
  | case2 c hc =>
    rw [collapseHT, if_pos hc]
    refine ⟨?_, ?_, fun _ => by decide⟩
    · intro h
      simp [listStarts] at h
    · intro h
      simp [listStarts] at h
  | case3 c hc =>
    rw [collapseHT, if_neg hc]
    exact ⟨fun h => h, fun h => h,
      fun _ => by simp [hasTriple, containsSubL, listStarts]⟩
  | case4 c d r hc hd ih =>
    rw [collapseHT, if_pos hc, if_pos hd]
    have hdn : ¬('`' = d) := by
      simp only [isHT, Bool.or_eq_true, decide_eq_true_eq] at hd
      rcases hd with h | h <;> simp [h]
    refine ⟨?_, ?_, ?_⟩
    · intro h
      have := ih.1 h
      rw [listStarts] at this
      simp [hdn] at this
    · intro h
      have := ih.2.1 h
      rw [listStarts] at this
      simp [hdn] at this
    · intro h
      refine ih.2.2 ?_
      unfold hasTriple at h ⊢
      rw [containsSubL, Bool.or_eq_false_iff] at h
      exact h.2
  | case5 c d r hc hd ih =>
    rw [collapseHT, if_pos hc, if_neg hd]
    refine ⟨?_, ?_, ?_⟩
    · intro h
      rw [listStarts] at h
      simp at h
    · intro h
      rw [listStarts] at h
      simp at h
    · intro h
      have h2 : hasTriple (d :: r) = false := by
        unfold hasTriple at h ⊢
        rw [containsSubL, Bool.or_eq_false_iff] at h
        exact h.2
      exact hasTriple_cons_ne ' ' _ (by decide) (ih.2.2 h2)
  | case6 c d r hc ih =>
    rw [collapseHT, if_neg hc]
    refine ⟨?_, ?_, ?_⟩
    · intro h
      rw [listStarts] at h ⊢
      rw [Bool.and_eq_true] at h
      simp [h.1, listStarts]
    · intro h
      rw [listStarts, Bool.and_eq_true] at h ⊢
      exact ⟨h.1, ih.1 h.2⟩
    · intro h
      unfold hasTriple at h ⊢
      rw [containsSubL, Bool.or_eq_false_iff] at h
      obtain ⟨hs, ht⟩ := h
      rw [containsSubL, Bool.or_eq_false_iff]
      refine ⟨?_, ih.2.2 ht⟩
      by_cases hx : listStarts ['`', '`', '`'] (c :: collapseHT (d :: r)) = true
      · exfalso
        rw [listStarts, Bool.and_eq_true] at hx
        have h2 := ih.2.1 hx.2
        rw [listStarts, hx.1, h2] at hs
        simp at hs
      · simpa using hx

/-! ### `collapseNLs` equations and invariants -/

theorem cNLs_cons_ne (c : Char) (r : List Char) (h : ¬(c = '\n')) :
    collapseNLs false (c :: r) = c :: collapseNLs false r := by
  rw [collapseNLs, if_neg h]
  simp

theorem cNLs_nl_nomatch (r : List Char) (h : nlAhead r = false) :
    collapseNLs false ('\n' :: r) = '\n' :: collapseNLs false r := by
  rw [collapseNLs]
  simp [h]

theorem cNLs_nl_match (r : List Char) (h : nlAhead r = true) :
    collapseNLs false ('\n' :: r) = collapseNLs true r := by
  rw [collapseNLs]
  simp [h]

/-- Closing a `\n\s*\n` match: in match mode with a newline reachable
through whitespace, the scan emits exactly one newline and resumes in
normal mode on a suffix whose head run has no further newline. -/
theorem cNLs_true_nl (r : List Char) (h : nlAhead r = true) :
    ∃ r', r' <:+ r ∧ nlAhead r' = false ∧
      collapseNLs true r = '\n' :: collapseNLs false r' := by
  have H : ∀ (n : Nat) (r : List Char), r.length ≤ n → nlAhead r = true →
      ∃ r', r' <:+ r ∧ nlAhead r' = false ∧
        collapseNLs true r = '\n' :: collapseNLs false r' := by
    intro n
    induction n with
    | zero =>
      intro r hl h
      have : r = [] := List.eq_nil_of_length_eq_zero (Nat.le_zero.mp hl)
      subst this
      simp [nlAhead] at h
    | succ n ih =>
      intro r hl h
      match r with
      | [] => simp [nlAhead] at h
      | c :: t =>
        by_cases hc : c = '\n'
        · subst hc
          rw [collapseNLs, if_pos rfl]
          by_cases hnt : nlAhead t = true
          · rw [if_pos hnt]
            obtain ⟨r', hsuf, hr1, hr2⟩ := ih t (by simp at hl; omega) hnt
            exact ⟨r', hsuf.trans (List.suffix_cons _ _), hr1, hr2⟩
          · rw [if_neg hnt]
            exact ⟨t, List.suffix_cons _ _, by simpa using hnt, rfl⟩
        · rw [nlAhead, if_neg hc] at h
          have hsp : isPySpace c = true := by
            by_cases hx : isPySpace c = true
            · exact hx
            · rw [if_neg hx] at h
              cases h
          rw [if_pos hsp] at h
          rw [collapseNLs, if_neg hc, if_pos (by simp [hsp])]
          obtain ⟨r', hsuf, hr1, hr2⟩ := ih t (by simp at hl; omega) h
          exact ⟨r', hsuf.trans (List.suffix_cons _ _), hr1, hr2⟩
  exact H r.length r (Nat.le_refl _) h

/-- First character emitted by the scan in normal mode: the input's head
or a newline. -/
theorem cNLs_false_head (c : Char) (r : List Char) :
    ∃ t, collapseNLs false (c :: r) = c :: t ∨
      collapseNLs false (c :: r) = '\n' :: t := by
  by_cases hc : c = '\n'
  · subst hc
    by_cases hm : nlAhead r = true
    · rw [cNLs_nl_match r hm]
      obtain ⟨r', _, _, hr2⟩ := cNLs_true_nl r hm
      exact ⟨collapseNLs false r', Or.inr hr2⟩
    · rw [cNLs_nl_nomatch r (by simpa using hm)]
      exact ⟨collapseNLs false r, Or.inl rfl⟩
  · rw [cNLs_cons_ne c r hc]
    exact ⟨collapseNLs false r, Or.inl rfl⟩

/-- The scan cannot create a leading newline-through-whitespace run. -/
theorem nlAhead_cNLs (r : List Char) (h : nlAhead r = false) :
    nlAhead (collapseNLs false r) = false := by
  induction r with
  | nil => rfl
  | cons c t ih =>
    rw [nlAhead] at h
    by_cases hc : c = '\n'
    · rw [if_pos hc] at h
      cases h
    · rw [if_neg hc] at h
      rw [cNLs_cons_ne c t hc, nlAhead, if_neg hc]
      by_cases hsp : isPySpace c = true
      · rw [if_pos hsp] at h ⊢
        exact ih h
      · rw [if_neg hsp]

theorem noDoubleSpaceL_suffix {m l : List Char} (hs : m <:+ l)
    (h : noDoubleSpaceL l = true) : noDoubleSpaceL m = true := by
  obtain ⟨t, rfl⟩ := hs
  induction t with
  | nil => exact h
  | cons a t ih => exact ih (noDoubleSpaceL_tail h)

theorem containsSubL_suffix {pat m l : List Char} (hs : m <:+ l)
    (h : containsSubL pat m = true) : containsSubL pat l = true := by
  obtain ⟨t, rfl⟩ := hs
  induction t with
  | nil => exact h
  | cons a t ih => exact containsSubL_tail pat a _ ih

/-- Joint invariant of the `\n\s*\n → \n` scan: it leaves no blank line,
and it preserves tab-freedom, double-space-freedom and fence-freedom; the
auxiliary backtick-prefix bounds make the fence case inductive. -/
theorem cNLs_shape (l : List Char) :
    noBlankLinesL (collapseNLs false l) = true ∧
    (noTabL l = true → noTabL (collapseNLs false l) = true) ∧
    (noDoubleSpaceL l = true → noDoubleSpaceL (collapseNLs false l) = true) ∧
    (listStarts ['`'] (collapseNLs false l) = true → listStarts ['`'] l = true) ∧
    (listStarts ['`', '`'] (collapseNLs false l) = true →
      listStarts ['`', '`'] l = true) ∧
    (hasTriple l = false → hasTriple (collapseNLs false l) = false) := by
  have H : ∀ (n : Nat) (l : List Char), l.length ≤ n →
      noBlankLinesL (collapseNLs false l) = true ∧
      (noTabL l = true → noTabL (collapseNLs false l) = true) ∧
      (noDoubleSpaceL l = true → noDoubleSpaceL (collapseNLs false l) = true) ∧
      (listStarts ['`'] (collapseNLs false l) = true → listStarts ['`'] l = true) ∧
      (listStarts ['`', '`'] (collapseNLs false l) = true →
        listStarts ['`', '`'] l = true) ∧
      (hasTriple l = false → hasTriple (collapseNLs false l) = false) := by
    intro n
    induction n with
    | zero =>
      intro l hl
      have : l = [] := List.eq_nil_of_length_eq_zero (Nat.le_zero.mp hl)
      subst this
      exact ⟨rfl, fun _ => rfl, fun _ => rfl, fun h => h, fun h => h, fun _ => rfl⟩
    | succ n ih =>
      intro l hl
      match l with
      | [] =>
        exact ⟨rfl, fun _ => rfl, fun _ => rfl, fun h => h, fun h => h, fun _ => rfl⟩
      | c :: r =>
        have hlr : r.length ≤ n := by simp at hl; omega
        by_cases hc : c = '\n'
        · subst hc
          by_cases hm : nlAhead r = true
          · -- match branch: output is '\n' :: scan of a suffix r'
            obtain ⟨r', hsuf, hnl', heq⟩ := cNLs_true_nl r hm
            have hlr' : r'.length ≤ n := le_trans hsuf.length_le hlr
            obtain ⟨B1, B2, B3, B4, B5, B6⟩ := ih r' hlr'
            rw [cNLs_nl_match r hm, heq]
            refine ⟨?_, ?_, ?_, ?_, ?_, ?_⟩
            · rw [noBlankLinesL, Bool.and_eq_true, if_pos rfl]
              exact ⟨by simp [nlAhead_cNLs r' hnl'], B1⟩
            · intro h
              rw [noTabL_cons] at h ⊢
              rw [Bool.and_eq_true] at h
              have : noTabL r' = true :=
                noTabL_sublist hsuf.sublist h.2
              simp [B2 this]
            · intro h
              rw [noDoubleSpaceL_cons_ne _ _ (by decide)]
              exact B3 (noDoubleSpaceL_suffix hsuf (noDoubleSpaceL_tail h))
            · intro h
              rw [listStarts] at h
              simp at h
            · intro h
              rw [listStarts] at h
              simp at h
            · intro h
              unfold hasTriple at h
              rw [containsSubL, Bool.or_eq_false_iff] at h
              have hr' : hasTriple r' = false := by
                by_cases hx : hasTriple r' = true
                · exfalso
                  have := containsSubL_suffix hsuf hx
                  rw [this] at h
                  simp at h
                · simpa using hx
              exact hasTriple_cons_ne '\n' _ (by decide) (B6 hr')
          · -- newline, no match: output '\n' :: scan r
            obtain ⟨B1, B2, B3, B4, B5, B6⟩ := ih r hlr
            rw [cNLs_nl_nomatch r (by simpa using hm)]
            refine ⟨?_, ?_, ?_, ?_, ?_, ?_⟩
            · rw [noBlankLinesL, Bool.and_eq_true, if_pos rfl]
              exact ⟨by simp [nlAhead_cNLs r (by simpa using hm)], B1⟩
            · intro h
              rw [noTabL_cons] at h ⊢
              rw [Bool.and_eq_true] at h
              simp [B2 h.2]
            · intro h
              rw [noDoubleSpaceL_cons_ne _ _ (by decide)]
              exact B3 (noDoubleSpaceL_tail h)
            · intro h
              rw [listStarts] at h
              simp at h
            · intro h
              rw [listStarts] at h
              simp at h
            · intro h
              unfold hasTriple at h
              rw [containsSubL, Bool.or_eq_false_iff] at h
              exact hasTriple_cons_ne '\n' _ (by decide) (B6 h.2)
        · -- head kept verbatim
          obtain ⟨B1, B2, B3, B4, B5, B6⟩ := ih r hlr
          rw [cNLs_cons_ne c r hc]
          refine ⟨?_, ?_, ?_, ?_, ?_, ?_⟩
          · rw [noBlankLinesL, Bool.and_eq_true, if_neg hc]
            exact ⟨rfl, B1⟩
          · intro h
            rw [noTabL_cons] at h ⊢
            rw [Bool.and_eq_true] at h
            simp [h.1, B2 h.2]
          · intro h
            by_cases hsp : c = ' '
            · subst hsp
              cases r with
              | nil => decide
              | cons d r2 =>
                have hd : ¬(d = ' ') := by
                  rw [noDoubleSpaceL] at h
                  rw [Bool.and_eq_true] at h
                  intro hd
                  subst hd
                  simp at h
                obtain ⟨t, ht⟩ := cNLs_false_head d r2
                rcases ht with ht | ht <;> rw [ht]
                · rw [noDoubleSpaceL_cons_head_ne _ _ _ hd, ← ht]
                  exact B3 (noDoubleSpaceL_tail h)
                · rw [noDoubleSpaceL_cons_head_ne _ _ _ (by decide), ← ht]
                  exact B3 (noDoubleSpaceL_tail h)
            · rw [noDoubleSpaceL_cons_ne _ _ hsp]
              exact B3 (noDoubleSpaceL_tail h)
          · intro h
            rw [listStarts, Bool.and_eq_true] at h ⊢
            exact ⟨h.1, rfl⟩
          · intro h
            rw [listStarts, Bool.and_eq_true] at h ⊢
            exact ⟨h.1, B4 h.2⟩
          · intro h
            unfold hasTriple at h ⊢
            rw [containsSubL, Bool.or_eq_false_iff] at h
            obtain ⟨hs, ht⟩ := h
            rw [containsSubL, Bool.or_eq_false_iff]
            refine ⟨?_, B6 ht⟩
            by_cases hx :
                listStarts ['`', '`', '`'] (c :: collapseNLs false r) = true
            · exfalso
              rw [listStarts, Bool.and_eq_true] at hx
              have h2 := B5 hx.2
              rw [listStarts, hx.1, h2] at hs
              simp at hs
            · simpa using hx
  exact H l.length l (Nat.le_refl _)

/-! ### `rstrip(';')` and `strip()` tail lemmas -/

theorem dropTrailingSemis_append_semi (l : List Char) :
    dropTrailingSemis (l ++ [';']) = dropTrailingSemis l := by
  unfold dropTrailingSemis
  rw [List.reverse_append]
  simp [List.dropWhile_cons]

theorem dropTrailingSemis_prefix (l : List Char) : dropTrailingSemis l <+: l :=
  trimRight_prefix _ _

theorem hasTriple_prefix {m l : List Char} (hp : m <+: l)
    (h : hasTriple l = false) : hasTriple m = false := by
  by_cases hx : hasTriple m = true
  · exfalso
    have htake := IsPrefix_eq_take hp
    unfold hasTriple at hx h
    rw [htake] at hx
    rw [containsSubL_take _ _ _ hx] at h
    cases h
  · simpa using hx

theorem pyStripL_no_triple (l : List Char) (h : hasTriple l = false) :
    hasTriple (pyStripL l) = false := by
  have hd := pyStripL_prefix_dropWhile l
  have htake := IsPrefix_eq_take hd
  by_cases hx : hasTriple (pyStripL l) = true
  · exfalso
    rw [htake] at hx
    unfold hasTriple at hx h
    rw [containsSubL_dropWhile _ isPySpace l (containsSubL_take _ _ _ hx)] at h
    cases h
  · simpa using hx

/-! ### `_clean_sql`: claim C6 -/

theorem clean_sql_shape (s : String) :
    noTabL (clean_sql s).data = true ∧ noDoubleSpaceL (clean_sql s).data = true ∧
    noBlankLinesL (clean_sql s).data = true ∧ hasTriple (clean_sql s).data = false := by
  by_cases hs : s = ""
  · subst hs
    exact ⟨by decide, by decide, by decide, by decide⟩
  · rw [clean_sql, if_neg hs]
    have h0 : hasTriple (stripFences s.data) = false := (stripFences_no_triple _).1
    have h1 : hasTriple (dropTrailingSemis (stripFences s.data)) = false :=
      hasTriple_prefix ( dropTrailingSemis_prefix _) h0
    have h2 : hasTriple (pyStripL (dropTrailingSemis (stripFences s.data))) = false :=
      pyStripL_no_triple _ h1
    have h3 := collapseHT_shape (pyStripL (dropTrailingSemis (stripFences s.data)))
    have h4 : hasTriple
        (collapseHT (pyStripL (dropTrailingSemis (stripFences s.data)))) = false :=
      (collapseHT_ticks _).2.2 h2
    have h5 := cNLs_shape (collapseHT (pyStripL (dropTrailingSemis (stripFences s.data))))
    have hB := h5.1
    have hT := h5.2.1 h3.1
    have hD := h5.2.2.1 h3.2
    have hF := h5.2.2.2.2.2 h4
    have hfin := pyStripL_preserves
      (collapseNLs false (collapseHT (pyStripL (dropTrailingSemis (stripFences s.data)))))
      hT hD hB hF
    exact hfin

theorem clean_sql_semi (s : String) : clean_sql (s ++ ";") = clean_sql s := by
  by_cases hs : s = ""
  · subst hs
    decide
  · have hdata : (s ++ ";").data = s.data ++ [';'] := by
      rw [String.data_append]
    have hne : ¬(s ++ ";" = "") := by
      intro h
      have h2 := congrArg String.data h
      rw [hdata] at h2
      simp at h2
    rw [clean_sql, clean_sql, if_neg hne, if_neg hs, hdata,
      stripFences_append_semi, dropTrailingSemis_append_semi]

theorem clean_sql_trim (s : String) : pyStrip (clean_sql s) = clean_sql s := by
  by_cases hs : s = ""
  · subst hs
    decide
  · rw [clean_sql, if_neg hs]
    exact congrArg String.mk (pyStripL_idem _)

/-- Claim C6 counterexample: `_clean_sql` does not strip exactly one
trailing semicolon — it strips every trailing semicolon (`rstrip(';')`),
and `re.sub` on `\n\s*\n` removes blank lines entirely rather than
collapsing runs of blank lines to one blank line. -/
theorem clean_sql_C6_counterexample :
    clean_sql "SELECT 1;;" = "SELECT 1" ∧
    ¬ clean_sql "SELECT 1;;" = "SELECT 1;" ∧
    clean_sql "A\n\n\nB" = "A\nB" ∧
    ¬ containsSub (clean_sql "A\n\n\nB") "\n\n" := by
  refine ⟨by decide, by decide, by decide, by decide⟩

/-- Claim C6 (amended): for every input string, `_clean_sql` strips
residual fence markers (no triple backtick remains), strips all trailing
statement terminators (appending a `;` does not change the output),
collapses runs of horizontal whitespace to one space (no tab and no two
adjacent spaces remain), removes blank lines entirely (no newline is
followed through whitespace by another newline), and trims surrounding
whitespace (the output is a fixpoint of `strip()`). -/
theorem clean_sql_C6_amended (s : String) :
    clean_sql (s ++ ";") = clean_sql s ∧
    pyStrip (clean_sql s) = clean_sql s ∧
    noTabL (clean_sql s).data = true ∧
    noDoubleSpaceL (clean_sql s).data = true ∧
    noBlankLinesL (clean_sql s).data = true ∧
    hasTriple (clean_sql s).data = false := by
  obtain ⟨h1, h2, h3, h4⟩ := clean_sql_shape s
  exact ⟨clean_sql_semi s, clean_sql_trim s, h1, h2, h3, h4⟩

/-! ### `_extract_sql`: claim C7 -/

theorem isPySpace_cases (c : Char) (h : isPySpace c = true) :
    c = ' ' ∨ c = '\t' ∨ c = '\n' ∨ c = '\r' ∨ c = '\x0b' ∨ c = '\x0c' := by
  simp [isPySpace, Char.isWhitespace] at h
  tauto

theorem ws_not_tick (c : Char) (h : isPySpace c = true) : ¬(c = '`') := by
  rcases isPySpace_cases c h with h | h | h | h | h | h <;> subst h <;> decide

theorem dropWhile_ws_append (w l : List Char) (hw : ∀ c ∈ w, isPySpace c = true) :
    (w ++ l).dropWhile isPySpace = l.dropWhile isPySpace := by
  induction w with
  | nil => rfl
  | cons c w' ih =>
    rw [List.cons_append, List.dropWhile_cons, if_pos (hw c (by simp))]
    exact ih (fun c hc => hw c (by simp [hc]))

theorem closeScan_cons_false (c : Char) (r : List Char)
    (h1 : ¬(c = '`')) (h2 : isPySpace c = false) : closeScan (c :: r) = false := by
  rw [closeScan, if_neg (by simp [tripleAt, h1]), if_neg (by simp [h2])]

theorem closeScan_cons_ws (c : Char) (r : List Char)
    (h1 : ¬(c = '`')) (h2 : isPySpace c = true) : closeScan (c :: r) = closeScan r := by
  rw [closeScan, if_neg (by simp [tripleAt, h1]), if_pos h2]

theorem closeScan_ws_triple (w t : List Char) (hw : ∀ c ∈ w, isPySpace c = true) :
    closeScan (w ++ '`' :: '`' :: '`' :: t) = true := by
  induction w with
  | nil =>
    rw [List.nil_append, closeScan, if_pos (by simp [tripleAt])]
  | cons c w' ih =>
    have hc := hw c (by simp)
    rw [List.cons_append, closeScan_cons_ws c _ (ws_not_tick c hc) hc]
    exact ih (fun c hc => hw c (by simp [hc]))

theorem lazyGroup_ws_close (w t : List Char) (hw : ∀ c ∈ w, isPySpace c = true) :
    lazyGroup (w ++ '`' :: '`' :: '`' :: t) = some [] := by
  cases w with
  | nil =>
    have hcs : closeScan ('`' :: '`' :: '`' :: t) = true := by
      rw [closeScan, if_pos (by simp [tripleAt])]
    rw [List.nil_append, lazyGroup, if_pos hcs]
  | cons c w' =>
    rw [List.cons_append, lazyGroup]
    rw [show (c :: (w' ++ '`' :: '`' :: '`' :: t)) =
      ((c :: w') ++ '`' :: '`' :: '`' :: t) from rfl]
    rw [if_pos (closeScan_ws_triple (c :: w') t hw)]

theorem lazyGroup_step (c : Char) (r : List Char) (h : closeScan (c :: r) = false) :
    lazyGroup (c :: r) = (lazyGroup r).map (c :: ·) := by
  rw [lazyGroup, h]
  simp

theorem sqlTagAt_ws_body (w : List Char) (rest : List Char)
    (hw : ∀ c ∈ w, isPySpace c = true) :
    sqlTagAt (w ++ 'S' :: 'E' :: rest) = false := by
  cases w with
  | nil => simp [sqlTagAt.eq_def]
  | cons c w' =>
    have hc := hw c (by simp)
    have hls : ¬(c.toLower = 's') := by
      rcases isPySpace_cases c hc with h | h | h | h | h | h <;> subst h <;> decide
    rw [List.cons_append, sqlTagAt.eq_def]
    simp [hls]

theorem pyStripL_tick_tick (m : List Char) :
    pyStripL ('`' :: (m ++ ['`'])) = '`' :: (m ++ ['`']) := by
  unfold pyStripL
  rw [List.dropWhile_cons, if_neg (by decide)]
  have hrev : ('`' :: (m ++ ['`'])).reverse = '`' :: (m.reverse ++ ['`']) := by
    simp
  rw [hrev, List.dropWhile_cons, if_neg (by decide), ← hrev, List.reverse_reverse]

theorem lazyGroup_select1 (semiL w2 : List Char)
    (hsem : semiL = [] ∨ semiL = [';'])
    (hw2 : ∀ c ∈ w2, isPySpace c = true) :
    lazyGroup ('S' :: 'E' :: 'L' :: 'E' :: 'C' :: 'T' :: ' ' :: '1' ::
        (semiL ++ (w2 ++ ['`', '`', '`']))) =
      some ('S' :: 'E' :: 'L' :: 'E' :: 'C' :: 'T' :: ' ' :: '1' :: semiL) := by
  have hws : lazyGroup (w2 ++ '`' :: '`' :: '`' :: []) = some [] :=
    lazyGroup_ws_close w2 [] hw2
  rcases hsem with hs | hs <;> subst hs
  · rw [lazyGroup_step 'S' _ (closeScan_cons_false _ _ (by decide) (by decide)),
      lazyGroup_step 'E' _ (closeScan_cons_false _ _ (by decide) (by decide)),
      lazyGroup_step 'L' _ (closeScan_cons_false _ _ (by decide) (by decide)),
      lazyGroup_step 'E' _ (closeScan_cons_false _ _ (by decide) (by decide)),
      lazyGroup_step 'C' _ (closeScan_cons_false _ _ (by decide) (by decide)),
      lazyGroup_step 'T' _ (closeScan_cons_false _ _ (by decide) (by decide))]
    rw [lazyGroup_step ' ' _ (by
      rw [closeScan_cons_ws _ _ (by decide) (by decide)]
      exact closeScan_cons_false _ _ (by decide) (by decide))]
    rw [lazyGroup_step '1' _ (closeScan_cons_false _ _ (by decide) (by decide))]
    rw [show (([] : List Char) ++ (w2 ++ ['`', '`', '`'])) =
      w2 ++ '`' :: '`' :: '`' :: [] from by simp]
    rw [hws]
    simp
  · rw [lazyGroup_step 'S' _ (closeScan_cons_false _ _ (by decide) (by decide)),
      lazyGroup_step 'E' _ (closeScan_cons_false _ _ (by decide) (by decide)),
      lazyGroup_step 'L' _ (closeScan_cons_false _ _ (by decide) (by decide)),
      lazyGroup_step 'E' _ (closeScan_cons_false _ _ (by decide) (by decide)),
      lazyGroup_step 'C' _ (closeScan_cons_false _ _ (by decide) (by decide)),
      lazyGroup_step 'T' _ (closeScan_cons_false _ _ (by decide) (by decide))]
    rw [lazyGroup_step ' ' _ (by
      rw [closeScan_cons_ws _ _ (by decide) (by decide)]
      exact closeScan_cons_false _ _ (by decide) (by decide))]
    rw [lazyGroup_step '1' _ (closeScan_cons_false _ _ (by decide) (by decide))]
    rw [show ((';' :: [] : List Char) ++ (w2 ++ ['`', '`', '`'])) =
      ';' :: (w2 ++ '`' :: '`' :: '`' :: []) from by simp]
    rw [lazyGroup_step ';' _ (closeScan_cons_false _ _ (by decide) (by decide))]
    rw [hws]
    simp

/-- Claim C7: a completion response that is a fenced code block containing
`SELECT 1` — with any tag spelling the fence pattern accepts, an optional
trailing semicolon, and any whitespace around the statement inside the
fences — extracts to exactly `SELECT 1`: no fence markers and no trailing
semicolon. -/
theorem extraction_roundtrip_C7 (tagL semiL w1 w2 : List Char)
    (htag : tagL = [] ∨ tagL = ['s', 'q', 'l'] ∨ tagL = ['S', 'Q', 'L'])
    (hsem : semiL = [] ∨ semiL = [';'])
    (hw1 : ∀ c ∈ w1, isPySpace c = true)
    (hw2 : ∀ c ∈ w2, isPySpace c = true) :
    extract_sql (String.mk ('`' :: '`' :: '`' ::
        (tagL ++ (w1 ++ ('S' :: 'E' :: 'L' :: 'E' :: 'C' :: 'T' :: ' ' :: '1' ::
          (semiL ++ (w2 ++ ['`', '`', '`']))))))) = "SELECT 1" := by
  have hlz := lazyGroup_select1 semiL w2 hsem hw2
  have hdw : ((w1 ++ ('S' :: 'E' :: 'L' :: 'E' :: 'C' :: 'T' :: ' ' :: '1' ::
        (semiL ++ (w2 ++ ['`', '`', '`']))))).dropWhile isPySpace =
      'S' :: 'E' :: 'L' :: 'E' :: 'C' :: 'T' :: ' ' :: '1' ::
        (semiL ++ (w2 ++ ['`', '`', '`'])) := by
    rw [dropWhile_ws_append w1 _ hw1, List.dropWhile_cons, if_neg (by decide)]
  have hne : String.mk ('`' :: '`' :: '`' ::
      (tagL ++ (w1 ++ ('S' :: 'E' :: 'L' :: 'E' :: 'C' :: 'T' :: ' ' :: '1' ::
        (semiL ++ (w2 ++ ['`', '`', '`'])))))) ≠ "" := by
    intro h
    have h2 := congrArg String.data h
    simp at h2
  have hstrip : pyStripL ('`' :: '`' :: '`' ::
      (tagL ++ (w1 ++ ('S' :: 'E' :: 'L' :: 'E' :: 'C' :: 'T' :: ' ' :: '1' ::
        (semiL ++ (w2 ++ ['`', '`', '`'])))))) =
      '`' :: '`' :: '`' ::
      (tagL ++ (w1 ++ ('S' :: 'E' :: 'L' :: 'E' :: 'C' :: 'T' :: ' ' :: '1' ::
        (semiL ++ (w2 ++ ['`', '`', '`']))))) := by
    have hshape : ('`' :: '`' :: '`' ::
        (tagL ++ (w1 ++ ('S' :: 'E' :: 'L' :: 'E' :: 'C' :: 'T' :: ' ' :: '1' ::
          (semiL ++ (w2 ++ ['`', '`', '`'])))))) =
        '`' :: (('`' :: '`' ::
        (tagL ++ (w1 ++ ('S' :: 'E' :: 'L' :: 'E' :: 'C' :: 'T' :: ' ' :: '1' ::
          (semiL ++ (w2 ++ ['`', '`'])))))) ++ ['`']) := by
      simp
    rw [hshape, pyStripL_tick_tick]
  have htriple : tripleAt ('`' :: '`' :: '`' ::
      (tagL ++ (w1 ++ ('S' :: 'E' :: 'L' :: 'E' :: 'C' :: 'T' :: ' ' :: '1' ::
        (semiL ++ (w2 ++ ['`', '`', '`'])))))) = true := by
    simp [tripleAt]
  unfold extract_sql
  rw [if_neg hne]
  dsimp only
  rw [hstrip, fenceGroup, if_pos htriple]
  dsimp only
  simp only [List.drop_succ_cons, List.drop_zero]
  rcases htag with ht | ht | ht <;> subst ht
  · rw [List.nil_append,
      sqlTagAt_ws_body w1 _ hw1]
    simp only [Bool.false_eq_true, if_false]
    rw [hdw, hlz]
    dsimp only
    rcases hsem with hs | hs <;> subst hs <;> decide
  · have htag3 : sqlTagAt ('s' :: 'q' :: 'l' ::
        (w1 ++ ('S' :: 'E' :: 'L' :: 'E' :: 'C' :: 'T' :: ' ' :: '1' ::
          (semiL ++ (w2 ++ ['`', '`', '`']))))) = true := by
      have e1 : 's'.toLower = 's' := by decide
      have e2 : 'q'.toLower = 'q' := by decide
      have e3 : 'l'.toLower = 'l' := by decide
      simp [sqlTagAt.eq_def, e1, e2, e3]
    rw [show (['s', 'q', 'l'] ++ (w1 ++ ('S' :: 'E' :: 'L' :: 'E' :: 'C' :: 'T' ::
        ' ' :: '1' :: (semiL ++ (w2 ++ ['`', '`', '`']))))) =
      ('s' :: 'q' :: 'l' :: (w1 ++ ('S' :: 'E' :: 'L' :: 'E' :: 'C' :: 'T' ::
        ' ' :: '1' :: (semiL ++ (w2 ++ ['`', '`', '`']))))) from rfl]
    rw [htag3]
    simp only [if_true]
    simp only [List.drop_succ_cons, List.drop_zero]
    rw [hdw, hlz]
    dsimp only
    rcases hsem with hs | hs <;> subst hs <;> decide
  · have htag3 : sqlTagAt ('S' :: 'Q' :: 'L' ::
        (w1 ++ ('S' :: 'E' :: 'L' :: 'E' :: 'C' :: 'T' :: ' ' :: '1' ::
          (semiL ++ (w2 ++ ['`', '`', '`']))))) = true := by
      have e1 : 'S'.toLower = 's' := by decide
      have e2 : 'Q'.toLower = 'q' := by decide
      have e3 : 'L'.toLower = 'l' := by decide
      simp [sqlTagAt.eq_def, e1, e2, e3]
    rw [show (['S', 'Q', 'L'] ++ (w1 ++ ('S' :: 'E' :: 'L' :: 'E' :: 'C' :: 'T' ::
        ' ' :: '1' :: (semiL ++ (w2 ++ ['`', '`', '`']))))) =
      ('S' :: 'Q' :: 'L' :: (w1 ++ ('S' :: 'E' :: 'L' :: 'E' :: 'C' :: 'T' ::
        ' ' :: '1' :: (semiL ++ (w2 ++ ['`', '`', '`']))))) from rfl]
    rw [htag3]
    simp only [if_true]
    simp only [List.drop_succ_cons, List.drop_zero]
    rw [hdw, hlz]
    dsimp only
    rcases hsem with hs | hs <;> subst hs <;> decide

theorem extraction_roundtrip_C7_witness :
    (['s', 'q', 'l'] = ([] : List Char) ∨ ['s', 'q', 'l'] = ['s', 'q', 'l'] ∨
      ['s', 'q', 'l'] = ['S', 'Q', 'L']) ∧
    ([';'] = ([] : List Char) ∨ [';'] = [';']) ∧
    (∀ c ∈ ['\n'], isPySpace c = true) ∧ (∀ c ∈ ['\n'], isPySpace c = true) ∧
    extract_sql (String.mk ('`' :: '`' :: '`' ::
        (['s', 'q', 'l'] ++ (['\n'] ++ ('S' :: 'E' :: 'L' :: 'E' :: 'C' :: 'T' ::
          ' ' :: '1' :: ([';'] ++ (['\n'] ++ ['`', '`', '`'])))))) ) = "SELECT 1" :=
  ⟨by decide, by decide, by decide, by decide,
    extraction_roundtrip_C7 ['s', 'q', 'l'] [';'] ['\n'] ['\n']
      (by decide) (by decide) (by decide) (by decide)⟩

end AnalyticsCopilot
